import Mathlib

/-!
IM adapter layer: WeCom, DingTalk and Feishu clients.

A shallow embedding of the three provider adapters (`im/wecom`, `im/dingtalk`,
`im/feishu`), of the message and directory model (`im`) and of `utils.JoinIDs`.

Conventions of the embedding.

* Go `string` is `String`; where the source looks at bytes (`strconv.Atoi`), the
  UTF-8 bytes of the string are used.
* Go `int` is the 64-bit signed integer: values are `Int`, and arithmetic the
  source performs on them is wrapped with `wrap64`.
* `time.Time` is an `Int` count of nanoseconds; `time.Duration` is an `int64`
  count of nanoseconds.
* Go `error` is the error's message (`errors.New m` is `m`).
* Go slices are lists (a nil slice and an empty slice are both `[]`).
* Go `map[string]T` is an association list with unique keys, written in the
  order of the source literal; `m[k] = v` is `mapSet`.
* A network endpoint is a function from the request to what the source has in
  hand after transport and `json.Unmarshal`: an error, or the decoded struct.
  Every operation returns, besides its Go results, the adapter after the call
  and the list of requests it issued, in order: the requests handed to the HTTP
  client (`client.Get`, `http.Get`, `http.Post`, `client.Do`).
* `utils.HttpPostJSON` builds its request with `http.NewRequest` and returns
  when that fails, before `client.Do`: its endpoint has a third answer,
  `refused`, and a refused request is not in the list.
-/

/-! ## Machine integers and time -/

/-- Two-complement wrap of an integer to the `int64` range. -/
def wrap64 (x : Int) : Int := (x + 2 ^ 63) % 2 ^ 64 - 2 ^ 63

/-- Range of Go `int` on a 64-bit target. -/
def isInt64 (x : Int) : Prop := -(2 ^ 63) ≤ x ∧ x < 2 ^ 63

instance (x : Int) : Decidable (isInt64 x) := by unfold isInt64; infer_instance

namespace time

/-- Go `time.Time`: nanoseconds on the wall clock. -/
abbrev Time := Int

/-- Go `time.Duration`: an `int64` count of nanoseconds. -/
abbrev Duration := Int

/-- Go `time.Second`. -/
def Second : Duration := 1000000000

/-- Go `t.Before(u)`. -/
def Before (t u : Time) : Bool := decide (t < u)

/-- Go `t.Add(d)`. -/
def Add (t : Time) (d : Duration) : Time := t + d

end time

/-! ## Dynamic values, maps and requests -/

/-- Values stored under `interface{}` in request bodies and payloads. -/
inductive Value where
  | null
  | str (s : String)
  | num (n : Int)
  | strMap (m : List (String × String))
  | strMapList (l : List (List (String × String)))
  | obj (m : List (String × Value))

/-- Map assignment `m[k] = v`: overwrite the entry of `k`, or add one. -/
def mapSet {β : Type} (m : List (String × β)) (k : String) (v : β) : List (String × β) :=
  match m with
  | [] => [(k, v)]
  | (k0, v0) :: rest => if k0 = k then (k, v) :: rest else (k0, v0) :: mapSet rest k v

/-- Map lookup `m[k]`. -/
def mapGet {β : Type} (m : List (String × β)) (k : String) : Option β :=
  match m with
  | [] => none
  | (k0, v0) :: rest => if k0 = k then some v0 else mapGet rest k

/-- Keys of a map. -/
def mapKeys {β : Type} (m : List (String × β)) : List String := m.map Prod.fst

/-- An HTTP request as the adapters issue it. -/
structure Request where
  method : String
  url : String
  body : Option Value
  headers : List (String × String)

/-- What an operation leaves behind: Go results, adapter state, requests issued. -/
structure Outcome (σ α : Type) where
  result : Except String α
  state : σ
  calls : List Request

/-! ## Package `im`: message and directory model -/

namespace im

structure Department where
  ID : Int
  Name : String
deriving DecidableEq

structure User where
  ID : String
  Name : String
  Phone : String
  DeptIDs : List String
deriving DecidableEq

abbrev MessageType := String

def TextMsg : MessageType := "text"
def ImageMsg : MessageType := "image"
def VoiceMsg : MessageType := "voice"
def VideoMsg : MessageType := "video"
def FileMsg : MessageType := "file"
def TextCardMsg : MessageType := "textcard"
def NewsMsg : MessageType := "news"
def MarkdownMsg : MessageType := "markdown"

structure ImageContent where
  MediaID : String
deriving DecidableEq

structure VoiceContent where
  MediaID : String
  Duration : Int
deriving DecidableEq

structure VideoContent where
  MediaID : String
  Title : String
  Description : String
deriving DecidableEq

structure FileContent where
  MediaID : String
deriving DecidableEq

structure TextCardContent where
  Title : String
  Description : String
  URL : String
  ButtonText : String
deriving DecidableEq

structure NewsArticle where
  Title : String
  Description : String
  URL : String
  PicURL : String
deriving DecidableEq

structure NewsContent where
  Articles : List NewsArticle
deriving DecidableEq

structure MarkdownContent where
  Content : String
deriving DecidableEq

/-- The dynamic value held by `Message.Content` (`interface{}`), by dynamic type.
`other` stands for every dynamic type the adapters never assert: nil, numbers,
pointers to the content structs, `im.Article`, and so on. -/
inductive Content where
  | str (s : String)
  | image (c : ImageContent)
  | voice (c : VoiceContent)
  | video (c : VideoContent)
  | file (c : FileContent)
  | textcard (c : TextCardContent)
  | news (c : NewsContent)
  | markdown (c : MarkdownContent)
  | other (tag : Nat)
deriving DecidableEq

/-- Message: `Type_` is the source field `Type` (a reserved word here). -/
structure Message where
  Type_ : MessageType
  Content : Content
deriving DecidableEq

end im

/-! ## Package `utils` and the library functions the adapters call -/

namespace strings

/-- Go `strings.Join(elems, sep)`. -/
def Join (elems : List String) (sep : String) : String := sep.intercalate elems

end strings

namespace utils

/-- Go `utils.JoinIDs`. -/
def JoinIDs (ids : List String) : String :=
  if ids.length = 0 then "" else strings.Join ids "|"

/-- Go `utils.HttpGetJSON`: one GET; the endpoint decides error or decoded reply. -/
def HttpGetJSON {ρ : Type} (endpoint : Request → Except String ρ) (url : String) :
    Except String ρ × Request :=
  let req : Request := { method := "GET", url := url, body := none, headers := [] }
  (endpoint req, req)

/-- What becomes of the request `utils.HttpPostJSON` is about to build:
`refused err` when `http.NewRequest` returns `err`, so that the function returns
before any request is made; `error err` when the request is made and
`client.Do`, reading the body or `json.Unmarshal` returns `err`; `ok res` when
the reply is decoded into `res`. -/
inductive PostReply (ρ : Type) where
  | refused (err : String)
  | error (err : String)
  | ok (res : ρ)

/-- Whether the request was made: every answer but `refused`. -/
def PostReply.made {ρ : Type} : PostReply ρ → Bool
  | .refused _ => false
  | .error _ => true
  | .ok _ => true

/-- Go `utils.HttpPostJSON`: builds one POST with a JSON body, the fixed
`Content-Type` header and then the extra headers, and sends it unless
`http.NewRequest` refused it. The result is the Go result and the requests
made: none when the request was refused, the POST otherwise. (`json.Marshal`
cannot fail on the bodies the adapters pass.) -/
def HttpPostJSON {ρ : Type} (endpoint : Request → PostReply ρ) (url : String)
    (data : Value) (headers : List (String × String)) : Except String ρ × List Request :=
  let hs := headers.foldl (fun acc kv => mapSet acc kv.1 kv.2)
    [("Content-Type", "application/json;charset=utf-8")]
  let req : Request := { method := "POST", url := url, body := some data, headers := hs }
  match endpoint req with
  | .refused err => (.error err, [])
  | .error err => (.error err, [req])
  | .ok res => (.ok res, [req])

end utils

namespace fmt

/-- The decimal loop of `fmt.fmtInteger`: bytes are written from the end of the
buffer, `buf` is the part already written; `fuel` bounds the iterations (a
`uint64` has at most 20 decimal digits). -/
def fmtLoop : Nat → Nat → List Nat → List Nat
  | 0, _, buf => buf
  | fuel + 1, u, buf =>
    if u ≥ 10 then
      let next := u / 10
      fmtLoop fuel next ((48 + u - next * 10) :: buf)
    else (48 + u) :: buf

/-- Bytes of `fmt.Sprintf("%d", d)` for a Go `int` `d` (`fmtInteger`, base 10, signed). -/
def fmtIntegerBytes (d : Int) : List Nat :=
  let u : Nat := (d % 2 ^ 64).toNat
  let negative : Bool := decide (2 ^ 63 ≤ u)
  let u := if negative then (2 ^ 64 - u) % 2 ^ 64 else u
  let buf := fmtLoop 20 u []
  if negative then 45 :: buf else buf

/-- The Go string `fmt.Sprintf("%d", d)`; every byte written is ASCII. -/
def SprintfD (d : Int) : String := String.mk ((fmtIntegerBytes d).map Char.ofNat)

end fmt

namespace strconv

/-- The two error kinds of `*strconv.NumError`. -/
inductive NumError where
  | ErrSyntax
  | ErrRange
deriving DecidableEq

/-- The bytes of a Go string: its UTF-8 encoding. -/
def bytes (s : String) : List Nat :=
  s.data.flatMap (fun c => (String.utf8EncodeChar c).map UInt8.toNat)

/-- Go `lower(c)`: `c | ('x' - 'X')`. -/
def lower (c : Nat) : Nat := c ||| 32

/-- Go `maxUint64/10 + 1`. -/
def cutoff10 : Nat := (2 ^ 64 - 1) / 10 + 1

/-- Go `maxVal` for `bitSize` 64. -/
def maxVal : Nat := 2 ^ 64 - 1

/-- The byte loop of `ParseUint(s, 10, 0)`; `n` is the `uint64` accumulator.
The underscore case needs base 0 and cannot be taken. -/
def parseUintLoop : List Nat → Nat → Nat × Option NumError
  | [], n => (n, none)
  | c :: cs, n =>
    let dig : Option Nat :=
      if 48 ≤ c ∧ c ≤ 57 then some (c - 48)
      else if 97 ≤ lower c ∧ lower c ≤ 122 then some (lower c - 97 + 10)
      else none
    match dig with
    | none => (0, some .ErrSyntax)
    | some d =>
      if d ≥ 10 then (0, some .ErrSyntax)
      else if n ≥ cutoff10 then (maxVal, some .ErrRange)
      else
        let n10 := (n * 10) % 2 ^ 64
        let n1 := (n10 + d) % 2 ^ 64
        if n1 < n10 ∨ n1 > maxVal then (maxVal, some .ErrRange)
        else parseUintLoop cs n1

/-- Go `strconv.ParseUint(s, 10, 0)` on the bytes of `s`. -/
def ParseUint (s : List Nat) : Nat × Option NumError :=
  if s = [] then (0, some .ErrSyntax) else parseUintLoop s 0

/-- Go `strconv.ParseInt(s, 10, 0)` on the bytes of `s`. -/
def ParseInt (s : List Nat) : Int × Option NumError :=
  match s with
  | [] => (0, some .ErrSyntax)
  | c0 :: rest =>
    let neg : Bool := decide (c0 = 45)
    let s1 := if c0 = 43 then rest else if c0 = 45 then rest else s
    let r := ParseUint s1
    if r.2 = some .ErrSyntax then (0, some .ErrSyntax)
    else
      let un : Nat := r.1
      let cutoff : Nat := 2 ^ 63
      if !neg && decide (un ≥ cutoff) then (((cutoff - 1 : Nat) : Int), some .ErrRange)
      else if neg && decide (un > cutoff) then (-(cutoff : Int), some .ErrRange)
      else
        let n : Int := wrap64 un
        let n := if neg then wrap64 (-n) else n
        (n, none)

/-- The byte loop of the fast path of `Atoi`; `none` is the syntax error. -/
def atoiFastLoop : List Nat → Int → Option Int
  | [], n => some n
  | ch :: cs, n =>
    let ch := (ch + 256 - 48) % 256
    if ch > 9 then none else atoiFastLoop cs (wrap64 (n * 10 + ch))

/-- Go `strconv.Atoi` on the bytes of its argument, with `intSize` 64: the returned
`int` and the error kind. -/
def atoiBytes (s : List Nat) : Int × Option NumError :=
  let sLen := s.length
  if 0 < sLen ∧ sLen < 19 then
    match s with
    | [] => (0, some .ErrSyntax)
    | c0 :: rest =>
      let signed : Bool := decide (c0 = 45) || decide (c0 = 43)
      let s1 := if signed then rest else s
      if signed && decide (s1.length < 1) then (0, some .ErrSyntax)
      else
        match atoiFastLoop s1 0 with
        | none => (0, some .ErrSyntax)
        | some n => (if c0 = 45 then wrap64 (-n) else n, none)
  else
    let r := ParseInt s
    (wrap64 r.1, r.2)

/-- Go `strconv.Atoi(s)`. -/
def Atoi (str : String) : Int × Option NumError := atoiBytes (bytes str)

/-- The number a run of digit bytes denotes, continuing from `n`. -/
def valueOf (bs : List Nat) (n : Nat) : Nat := bs.foldl (fun n b => n * 10 + (b - 48)) n

end strconv

/-! ## Package `wecom`: message encoder -/

namespace wecom

/-- Go `WeComClient`: credentials and the cached token. -/
structure WeComClient where
  CorpID : String
  CorpSecret : String
  token : String
  tokenExp : time.Time
deriving DecidableEq

/-- Go `NewWeComClient`: the token fields start at their zero values. -/
def NewWeComClient (corpID corpSecret : String) : WeComClient :=
  { CorpID := corpID, CorpSecret := corpSecret, token := "", tokenExp := 0 }

/-- The loop of the `news` case: one flattened map per article, appended in order. -/
def newsArticles (arts : List im.NewsArticle) : List (List (String × String)) :=
  arts.foldl (fun articles art =>
    articles ++ [[("title", art.Title), ("description", art.Description),
                  ("url", art.URL), ("picurl", art.PicURL)]]) []

/-- Go `WeComClient.convertMessage`. -/
def convertMessage (msg : im.Message) : Except String (List (String × Value)) :=
  if msg.Type_ = im.TextMsg then
    match msg.Content with
    | .str text => .ok [("text", .strMap [("content", text)])]
    | _ => .error "invalid content for text message"
  else if msg.Type_ = im.ImageMsg then
    match msg.Content with
    | .image img => .ok [("image", .strMap [("media_id", img.MediaID)])]
    | _ => .error "invalid content for image message"
  else if msg.Type_ = im.VoiceMsg then
    match msg.Content with
    | .voice voice => .ok [("voice", .strMap [("media_id", voice.MediaID)])]
    | _ => .error "invalid content for voice message"
  else if msg.Type_ = im.VideoMsg then
    match msg.Content with
    | .video video => .ok [("video", .strMap [("media_id", video.MediaID),
        ("title", video.Title), ("description", video.Description)])]
    | _ => .error "invalid content for video message"
  else if msg.Type_ = im.FileMsg then
    match msg.Content with
    | .file file => .ok [("file", .strMap [("media_id", file.MediaID)])]
    | _ => .error "invalid content for file message"
  else if msg.Type_ = im.TextCardMsg then
    match msg.Content with
    | .textcard card => .ok [("textcard", .strMap [("title", card.Title),
        ("description", card.Description), ("url", card.URL), ("btntxt", card.ButtonText)])]
    | _ => .error "invalid content for textcard message"
  else if msg.Type_ = im.NewsMsg then
    match msg.Content with
    | .news news => .ok [("news", .obj [("articles", .strMapList (newsArticles news.Articles))])]
    | _ => .error "invalid content for news message"
  else if msg.Type_ = im.MarkdownMsg then
    match msg.Content with
    | .markdown md => .ok [("markdown", .strMap [("content", md.Content)])]
    | _ => .error "invalid content for markdown message"
  else .error "unsupported message type"

end wecom

/-! ## Package `dingtalk`: message encoder -/

namespace dingtalk

/-- Go `DingTalkClient`: credentials and the cached token. -/
structure DingTalkClient where
  AppKey : String
  AppSecret : String
  token : String
  tokenExp : time.Time
deriving DecidableEq

/-- Go `NewDingTalkClient`. -/
def NewDingTalkClient (appKey appSecret : String) : DingTalkClient :=
  { AppKey := appKey, AppSecret := appSecret, token := "", tokenExp := 0 }

/-- Go `DingTalkClient.convertMessage`. -/
def convertMessage (msg : im.Message) : Except String (List (String × Value)) :=
  if msg.Type_ = im.TextMsg then
    match msg.Content with
    | .str text => .ok [("msgtype", .str "text"), ("text", .strMap [("content", text)])]
    | _ => .error "invalid content for text message"
  else if msg.Type_ = im.ImageMsg then
    match msg.Content with
    | .image img => .ok [("msgtype", .str "image"), ("image", .strMap [("media_id", img.MediaID)])]
    | _ => .error "invalid content for image message"
  else .error "unsupported message type for DingTalk"

end dingtalk

/-! ## Package `feishu`: message encoder -/

namespace feishu

/-- Go `FeishuClient`: credentials and the cached token. -/
structure FeishuClient where
  AppID : String
  AppSecret : String
  token : String
  tokenExp : time.Time
deriving DecidableEq

/-- Go `NewFeishuClient`. -/
def NewFeishuClient (appID appSecret : String) : FeishuClient :=
  { AppID := appID, AppSecret := appSecret, token := "", tokenExp := 0 }

/-- Go `FeishuClient.convertMessage`. -/
def convertMessage (msg : im.Message) : Except String (List (String × Value)) :=
  if msg.Type_ = im.TextMsg then
    match msg.Content with
    | .str text => .ok [("text", .str text)]
    | _ => .error "invalid content for text message"
  else if msg.Type_ = im.ImageMsg then
    match msg.Content with
    | .image img => .ok [("image_key", .str img.MediaID)]
    | _ => .error "invalid content for image message"
  else .error "unsupported message type for Feishu"

end feishu

/-! ## Package `wecom`: token, send, directory -/

namespace wecom

/-- Reply of `gettoken`. -/
structure TokenRes where
  ErrCode : Int
  ErrMsg : String
  AccessToken : String
  ExpiresIn : Int

/-- Reply of `message/send`. -/
structure SendRes where
  ErrCode : Int
  ErrMsg : String

/-- One entry of the `department` array. -/
structure DeptItem where
  ID : Int
  Name : String
  ParentID : Int

/-- Reply of `department/list`. -/
structure DeptRes where
  ErrCode : Int
  ErrMsg : String
  Department : List DeptItem

/-- One entry of the `userlist` array. -/
structure UserItem where
  UserID : String
  Name : String
  Department : List Int

/-- Reply of `user/list`. -/
structure UserRes where
  ErrCode : Int
  ErrMsg : String
  UserList : List UserItem

/-- What surrounds one operation: the two readings of `time.Now()` that
`getAccessToken` can take (in the cache test, and when the expiry is computed
after the reply) and the four endpoints; the send endpoint is reached through
`utils.HttpPostJSON` and can refuse the request before it is made. -/
structure World where
  nowCheck : time.Time
  nowStore : time.Time
  gettoken : Request → Except String TokenRes
  send : Request → utils.PostReply SendRes
  departmentList : Request → Except String DeptRes
  userList : Request → Except String UserRes

/-- URL of the auth request. -/
def tokenURL (w : WeComClient) : String :=
  "https://qyapi.weixin.qq.com/cgi-bin/gettoken?corpid=" ++ w.CorpID ++ "&corpsecret=" ++ w.CorpSecret

/-- Go `WeComClient.getAccessToken`. -/
def getAccessToken (env : World) (w : WeComClient) : Outcome WeComClient String :=
  if w.token ≠ "" ∧ time.Before env.nowCheck w.tokenExp = true then
    { result := .ok w.token, state := w, calls := [] }
  else
    let r := utils.HttpGetJSON env.gettoken (tokenURL w)
    match r.1 with
    | .error err => { result := .error err, state := w, calls := [r.2] }
    | .ok res =>
      if res.ErrCode ≠ 0 then { result := .error res.ErrMsg, state := w, calls := [r.2] }
      else
        let w1 : WeComClient :=
          { w with
            token := res.AccessToken
            tokenExp := time.Add env.nowStore (wrap64 (wrap64 (res.ExpiresIn - 60) * time.Second)) }
        { result := .ok w1.token, state := w1, calls := [r.2] }

/-- The request body of `SendMessage`: the three routing fields, then every
entry of the payload assigned over them. -/
def sendBody (toUserIDs toDeptIDs : List String) (msg : im.Message)
    (payload : List (String × Value)) : List (String × Value) :=
  payload.foldl (fun body kv => mapSet body kv.1 kv.2)
    [("touser", .str (utils.JoinIDs toUserIDs)),
     ("toparty", .str (utils.JoinIDs toDeptIDs)),
     ("msgtype", .str msg.Type_)]

/-- Go `WeComClient.SendMessage`. -/
def SendMessage (env : World) (w : WeComClient) (toUserIDs toDeptIDs : List String)
    (msg : im.Message) : Outcome WeComClient Unit :=
  let t := getAccessToken env w
  match t.result with
  | .error err => { result := .error err, state := t.state, calls := t.calls }
  | .ok token =>
    match convertMessage msg with
    | .error err => { result := .error err, state := t.state, calls := t.calls }
    | .ok payload =>
      let body := sendBody toUserIDs toDeptIDs msg payload
      let url := "https://qyapi.weixin.qq.com/cgi-bin/message/send?access_token=" ++ token
      let r := utils.HttpPostJSON env.send url (.obj body) []
      match r.1 with
      | .error err => { result := .error err, state := t.state, calls := t.calls ++ r.2 }
      | .ok res =>
        if res.ErrCode ≠ 0 then
          { result := .error res.ErrMsg, state := t.state, calls := t.calls ++ r.2 }
        else { result := .ok (), state := t.state, calls := t.calls ++ r.2 }

/-- Go `WeComClient.GetDepartments`. -/
def GetDepartments (env : World) (w : WeComClient) : Outcome WeComClient (List im.Department) :=
  let t := getAccessToken env w
  match t.result with
  | .error err => { result := .error err, state := t.state, calls := t.calls }
  | .ok token =>
    let url := "https://qyapi.weixin.qq.com/cgi-bin/department/list?access_token=" ++ token
    let r := utils.HttpGetJSON env.departmentList url
    match r.1 with
    | .error err => { result := .error err, state := t.state, calls := t.calls ++ [r.2] }
    | .ok res =>
      if res.ErrCode ≠ 0 then
        { result := .error res.ErrMsg, state := t.state, calls := t.calls ++ [r.2] }
      else
        let depts := res.Department.foldl (fun depts d =>
          let atoi := (strconv.Atoi (fmt.SprintfD d.ID)).1
          depts ++ [{ ID := atoi, Name := d.Name }]) []
        { result := .ok depts, state := t.state, calls := t.calls ++ [r.2] }

/-- Go `WeComClient.GetUsers`. -/
def GetUsers (env : World) (w : WeComClient) : Outcome WeComClient (List im.User) :=
  let t := getAccessToken env w
  match t.result with
  | .error err => { result := .error err, state := t.state, calls := t.calls }
  | .ok token =>
    let url := "https://qyapi.weixin.qq.com/cgi-bin/user/list?access_token=" ++ token
      ++ "&department_id=1&fetch_child=1"
    let r := utils.HttpGetJSON env.userList url
    match r.1 with
    | .error err => { result := .error err, state := t.state, calls := t.calls ++ [r.2] }
    | .ok res =>
      if res.ErrCode ≠ 0 then
        { result := .error res.ErrMsg, state := t.state, calls := t.calls ++ [r.2] }
      else
        let users := res.UserList.foldl (fun users u =>
          let depts := u.Department.foldl (fun depts d => depts ++ [fmt.SprintfD d]) []
          users ++ [{ ID := u.UserID, Name := u.Name, Phone := "", DeptIDs := depts }]) []
        { result := .ok users, state := t.state, calls := t.calls ++ [r.2] }

end wecom

/-! ## Package `net/http` as the DingTalk and Feishu adapters use it -/

namespace http

/-- Go `http.Get(url)` followed by reading and decoding the reply. -/
def Get {ρ : Type} (endpoint : Request → Except String ρ) (url : String) :
    Except String ρ × Request :=
  let req : Request := { method := "GET", url := url, body := none, headers := [] }
  (endpoint req, req)

/-- Go `http.Post(url, contentType, body)` followed by reading and decoding the reply. -/
def Post {ρ : Type} (endpoint : Request → Except String ρ) (url contentType : String)
    (body : Value) : Except String ρ × Request :=
  let req : Request :=
    { method := "POST", url := url, body := some body, headers := [("Content-Type", contentType)] }
  (endpoint req, req)

/-- Go `client.Do(req)` followed by reading and decoding the reply. -/
def Do {ρ : Type} (endpoint : Request → Except String ρ) (req : Request) :
    Except String ρ × Request :=
  (endpoint req, req)

end http

/-! ## Package `dingtalk`: token, send, directory -/

namespace dingtalk

/-- Reply of `gettoken`. -/
structure TokenRes where
  ErrCode : Int
  ErrMsg : String
  AccessToken : String
  ExpiresIn : Int

/-- Reply of `asyncsend_v2`. -/
structure SendRes where
  ErrCode : Int
  ErrMsg : String

/-- One entry of the `department` array. -/
structure DeptItem where
  ID : Int
  Name : String
  ParentID : Int

/-- Reply of `department/list`. -/
structure DeptRes where
  ErrCode : Int
  ErrMsg : String
  Department : List DeptItem

/-- One entry of the `userlist` array. -/
structure UserItem where
  UserID : String
  Name : String
  DeptIDList : List Int

/-- Reply of `user/listbypage`. -/
structure UserRes where
  ErrCode : Int
  ErrMsg : String
  Userlist : List UserItem

/-- The two clock readings and the four endpoints around one operation. -/
structure World where
  nowCheck : time.Time
  nowStore : time.Time
  gettoken : Request → Except String TokenRes
  send : Request → Except String SendRes
  departmentList : Request → Except String DeptRes
  userList : Request → Except String UserRes

/-- URL of the auth request. -/
def tokenURL (d : DingTalkClient) : String :=
  "https://oapi.dingtalk.com/gettoken?appkey=" ++ d.AppKey ++ "&appsecret=" ++ d.AppSecret

/-- Go `DingTalkClient.getAccessToken`. -/
def getAccessToken (env : World) (d : DingTalkClient) : Outcome DingTalkClient String :=
  if d.token ≠ "" ∧ time.Before env.nowCheck d.tokenExp = true then
    { result := .ok d.token, state := d, calls := [] }
  else
    let r := http.Get env.gettoken (tokenURL d)
    match r.1 with
    | .error err => { result := .error err, state := d, calls := [r.2] }
    | .ok res =>
      if res.ErrCode ≠ 0 then { result := .error res.ErrMsg, state := d, calls := [r.2] }
      else
        let d1 : DingTalkClient :=
          { d with
            token := res.AccessToken
            tokenExp := time.Add env.nowStore (wrap64 (wrap64 (res.ExpiresIn - 60) * time.Second)) }
        { result := .ok d1.token, state := d1, calls := [r.2] }

/-- Go `DingTalkClient.SendMessage`; `toDeptIDs` is never read. -/
def SendMessage (env : World) (d : DingTalkClient) (toUserIDs _toDeptIDs : List String)
    (msg : im.Message) : Outcome DingTalkClient Unit :=
  let t := getAccessToken env d
  match t.result with
  | .error err => { result := .error err, state := t.state, calls := t.calls }
  | .ok token =>
    if toUserIDs.length = 0 then
      { result := .error "toUserIDs cannot be empty", state := t.state, calls := t.calls }
    else
      let toUserIDStr := strings.Join toUserIDs ","
      let body : List (String × Value) :=
        [("agent_id", .num 123456789), ("userid_list", .str toUserIDStr), ("msg", .null)]
      match convertMessage msg with
      | .error err => { result := .error err, state := t.state, calls := t.calls }
      | .ok msgPayload =>
        let body := mapSet body "msg" (.obj msgPayload)
        let url := "https://oapi.dingtalk.com/topapi/message/corpconversation/asyncsend_v2?access_token="
          ++ token
        let r := http.Post env.send url "application/json" (.obj body)
        match r.1 with
        | .error err => { result := .error err, state := t.state, calls := t.calls ++ [r.2] }
        | .ok res =>
          if res.ErrCode ≠ 0 then
            { result := .error res.ErrMsg, state := t.state, calls := t.calls ++ [r.2] }
          else { result := .ok (), state := t.state, calls := t.calls ++ [r.2] }

/-- Go `DingTalkClient.GetDepartments`. -/
def GetDepartments (env : World) (d : DingTalkClient) :
    Outcome DingTalkClient (List im.Department) :=
  let t := getAccessToken env d
  match t.result with
  | .error err => { result := .error err, state := t.state, calls := t.calls }
  | .ok token =>
    let url := "https://oapi.dingtalk.com/department/list?access_token=" ++ token
    let r := http.Get env.departmentList url
    match r.1 with
    | .error err => { result := .error err, state := t.state, calls := t.calls ++ [r.2] }
    | .ok res =>
      if res.ErrCode ≠ 0 then
        { result := .error res.ErrMsg, state := t.state, calls := t.calls ++ [r.2] }
      else
        let depts := res.Department.foldl (fun depts dd =>
          depts ++ [{ ID := dd.ID, Name := dd.Name }]) []
        { result := .ok depts, state := t.state, calls := t.calls ++ [r.2] }

/-- Go `DingTalkClient.GetUsers`. -/
def GetUsers (env : World) (d : DingTalkClient) : Outcome DingTalkClient (List im.User) :=
  let t := getAccessToken env d
  match t.result with
  | .error err => { result := .error err, state := t.state, calls := t.calls }
  | .ok token =>
    let url := "https://oapi.dingtalk.com/user/listbypage?access_token=" ++ token
      ++ "&department_id=1&offset=0&size=100"
    let r := http.Get env.userList url
    match r.1 with
    | .error err => { result := .error err, state := t.state, calls := t.calls ++ [r.2] }
    | .ok res =>
      if res.ErrCode ≠ 0 then
        { result := .error res.ErrMsg, state := t.state, calls := t.calls ++ [r.2] }
      else
        let users := res.Userlist.foldl (fun users u =>
          let depts := u.DeptIDList.foldl (fun depts dd => depts ++ [fmt.SprintfD dd]) []
          users ++ [{ ID := u.UserID, Name := u.Name, Phone := "", DeptIDs := depts }]) []
        { result := .ok users, state := t.state, calls := t.calls ++ [r.2] }

end dingtalk

/-! ## Package `feishu`: token, send, directory -/

namespace feishu

/-- Reply of `tenant_access_token/internal`. -/
structure TokenRes where
  Code : Int
  Msg : String
  TenantAccessToken : String
  Expire : Int

/-- Reply of `message/v4/send` (`data` is decoded and never read). -/
structure SendRes where
  Code : Int
  Msg : String

/-- One entry of `data.items` of the department list. -/
structure DeptItem where
  DepartmentID : String
  Name : String

/-- Reply of `contact/v3/departments`. -/
structure DeptRes where
  Code : Int
  Msg : String
  Items : List DeptItem

/-- One entry of `data.items` of the user list. -/
structure UserItem where
  UserID : String
  Name : String
  DepartmentIDs : List String

/-- Reply of `contact/v3/users`. -/
structure UserRes where
  Code : Int
  Msg : String
  Items : List UserItem

/-- The two clock readings and the four endpoints around one operation. -/
structure World where
  nowCheck : time.Time
  nowStore : time.Time
  tenantAccessToken : Request → Except String TokenRes
  send : Request → Except String SendRes
  departments : Request → Except String DeptRes
  users : Request → Except String UserRes

/-- The auth request. -/
def tokenURL : String :=
  "https://open.feishu.cn/open-apis/auth/v3/tenant_access_token/internal/"

/-- Go `FeishuClient.getAccessToken`. -/
def getAccessToken (env : World) (f : FeishuClient) : Outcome FeishuClient String :=
  if f.token ≠ "" ∧ time.Before env.nowCheck f.tokenExp = true then
    { result := .ok f.token, state := f, calls := [] }
  else
    let payload : List (String × String) := [("app_id", f.AppID), ("app_secret", f.AppSecret)]
    let r := http.Post env.tenantAccessToken tokenURL "application/json" (.strMap payload)
    match r.1 with
    | .error err => { result := .error err, state := f, calls := [r.2] }
    | .ok res =>
      if res.Code ≠ 0 then { result := .error res.Msg, state := f, calls := [r.2] }
      else
        let f1 : FeishuClient :=
          { f with
            token := res.TenantAccessToken
            tokenExp := time.Add env.nowStore (wrap64 (wrap64 (res.Expire - 60) * time.Second)) }
        { result := .ok f1.token, state := f1, calls := [r.2] }

/-- The request `SendMessage` builds once the content is encoded. -/
def sendRequest (token userID : String) (msg : im.Message) (content : List (String × Value)) :
    Request :=
  let body : List (String × Value) := [("user_id", .str userID), ("msg_type", .str msg.Type_)]
  let body := mapSet body "content" (.obj content)
  { method := "POST"
    url := "https://open.feishu.cn/open-apis/message/v4/send/"
    body := some (.obj body)
    headers := mapSet (mapSet [] "Authorization" ("Bearer " ++ token))
      "Content-Type" "application/json; charset=utf-8" }

/-- Go `FeishuClient.SendMessage`; `toDeptIDs` is never read. -/
def SendMessage (env : World) (f : FeishuClient) (toUserIDs _toDeptIDs : List String)
    (msg : im.Message) : Outcome FeishuClient Unit :=
  let t := getAccessToken env f
  match t.result with
  | .error err => { result := .error err, state := t.state, calls := t.calls }
  | .ok token =>
    match toUserIDs with
    | [] => { result := .error "toUserIDs cannot be empty", state := t.state, calls := t.calls }
    | userID :: _ =>
      match convertMessage msg with
      | .error err => { result := .error err, state := t.state, calls := t.calls }
      | .ok content =>
        let r := http.Do env.send (sendRequest token userID msg content)
        match r.1 with
        | .error err => { result := .error err, state := t.state, calls := t.calls ++ [r.2] }
        | .ok res =>
          if res.Code ≠ 0 then
            { result := .error res.Msg, state := t.state, calls := t.calls ++ [r.2] }
          else { result := .ok (), state := t.state, calls := t.calls ++ [r.2] }

/-- Go `FeishuClient.GetDepartments`. -/
def GetDepartments (env : World) (f : FeishuClient) :
    Outcome FeishuClient (List im.Department) :=
  let t := getAccessToken env f
  match t.result with
  | .error err => { result := .error err, state := t.state, calls := t.calls }
  | .ok token =>
    let req : Request :=
      { method := "GET", url := "https://open.feishu.cn/open-apis/contact/v3/departments"
        body := none, headers := mapSet [] "Authorization" ("Bearer " ++ token) }
    let r := http.Do env.departments req
    match r.1 with
    | .error err => { result := .error err, state := t.state, calls := t.calls ++ [r.2] }
    | .ok res =>
      if res.Code ≠ 0 then
        { result := .error res.Msg, state := t.state, calls := t.calls ++ [r.2] }
      else
        let depts := res.Items.foldl (fun depts d =>
          let atoi := (strconv.Atoi d.DepartmentID).1
          depts ++ [{ ID := atoi, Name := d.Name }]) []
        { result := .ok depts, state := t.state, calls := t.calls ++ [r.2] }

/-- Go `FeishuClient.GetUsers`. -/
def GetUsers (env : World) (f : FeishuClient) : Outcome FeishuClient (List im.User) :=
  let t := getAccessToken env f
  match t.result with
  | .error err => { result := .error err, state := t.state, calls := t.calls }
  | .ok token =>
    let req : Request :=
      { method := "GET", url := "https://open.feishu.cn/open-apis/contact/v3/users?page_size=100"
        body := none, headers := mapSet [] "Authorization" ("Bearer " ++ token) }
    let r := http.Do env.users req
    match r.1 with
    | .error err => { result := .error err, state := t.state, calls := t.calls ++ [r.2] }
    | .ok res =>
      if res.Code ≠ 0 then
        { result := .error res.Msg, state := t.state, calls := t.calls ++ [r.2] }
      else
        let users := res.Items.foldl (fun users u =>
          users ++ [{ ID := u.UserID, Name := u.Name, Phone := "", DeptIDs := u.DepartmentIDs }]) []
        { result := .ok users, state := t.state, calls := t.calls ++ [r.2] }

end feishu

/-! ## Names for the requests the operations issue -/

namespace wecom

/-- The auth request of `getAccessToken`. -/
def tokenRequest (w : WeComClient) : Request :=
  { method := "GET", url := tokenURL w, body := none, headers := [] }

/-- The send request of `SendMessage`, given the token and the encoded payload. -/
def sendRequest (token : String) (toUserIDs toDeptIDs : List String) (msg : im.Message)
    (payload : List (String × Value)) : Request :=
  { method := "POST"
    url := "https://qyapi.weixin.qq.com/cgi-bin/message/send?access_token=" ++ token
    body := some (.obj (sendBody toUserIDs toDeptIDs msg payload))
    headers := [("Content-Type", "application/json;charset=utf-8")] }

/-- The request of `GetDepartments`. -/
def departmentListRequest (token : String) : Request :=
  { method := "GET"
    url := "https://qyapi.weixin.qq.com/cgi-bin/department/list?access_token=" ++ token
    body := none, headers := [] }

/-- The request of `GetUsers`. -/
def userListRequest (token : String) : Request :=
  { method := "GET"
    url := "https://qyapi.weixin.qq.com/cgi-bin/user/list?access_token=" ++ token
      ++ "&department_id=1&fetch_child=1"
    body := none, headers := [] }

end wecom

namespace dingtalk

/-- The auth request of `getAccessToken`. -/
def tokenRequest (d : DingTalkClient) : Request :=
  { method := "GET", url := tokenURL d, body := none, headers := [] }

/-- The send request of `SendMessage`, given the token and the encoded message. -/
def sendRequest (token : String) (toUserIDs : List String) (msgPayload : List (String × Value)) :
    Request :=
  { method := "POST"
    url := "https://oapi.dingtalk.com/topapi/message/corpconversation/asyncsend_v2?access_token="
      ++ token
    body := some (.obj [("agent_id", .num 123456789),
      ("userid_list", .str (strings.Join toUserIDs ",")), ("msg", .obj msgPayload)])
    headers := [("Content-Type", "application/json")] }

/-- The request of `GetDepartments`. -/
def departmentListRequest (token : String) : Request :=
  { method := "GET"
    url := "https://oapi.dingtalk.com/department/list?access_token=" ++ token
    body := none, headers := [] }

/-- The request of `GetUsers`. -/
def userListRequest (token : String) : Request :=
  { method := "GET"
    url := "https://oapi.dingtalk.com/user/listbypage?access_token=" ++ token
      ++ "&department_id=1&offset=0&size=100"
    body := none, headers := [] }

end dingtalk

namespace feishu

/-- The auth request of `getAccessToken`. -/
def tokenRequest (f : FeishuClient) : Request :=
  { method := "POST", url := tokenURL
    body := some (.strMap [("app_id", f.AppID), ("app_secret", f.AppSecret)])
    headers := [("Content-Type", "application/json")] }

/-- The request of `GetDepartments`. -/
def departmentsRequest (token : String) : Request :=
  { method := "GET", url := "https://open.feishu.cn/open-apis/contact/v3/departments"
    body := none, headers := [("Authorization", "Bearer " ++ token)] }

/-- The request of `GetUsers`. -/
def usersRequest (token : String) : Request :=
  { method := "GET", url := "https://open.feishu.cn/open-apis/contact/v3/users?page_size=100"
    body := none, headers := [("Authorization", "Bearer " ++ token)] }

end feishu

/-! ## The properties, in the words of the specification -/

namespace im

/-- The eight declared message types. -/
def declaredTypes : List MessageType :=
  [TextMsg, ImageMsg, VoiceMsg, VideoMsg, FileMsg, TextCardMsg, NewsMsg, MarkdownMsg]

/-- The one content shape that goes with a message type: text with a plain
string, image with `ImageContent`, and so on for the eight types. -/
def contentMatches (t : MessageType) (c : Content) : Bool :=
  match c with
  | .str _ => decide (t = TextMsg)
  | .image _ => decide (t = ImageMsg)
  | .voice _ => decide (t = VoiceMsg)
  | .video _ => decide (t = VideoMsg)
  | .file _ => decide (t = FileMsg)
  | .textcard _ => decide (t = TextCardMsg)
  | .news _ => decide (t = NewsMsg)
  | .markdown _ => decide (t = MarkdownMsg)
  | .other _ => false

/-- The content-mismatch error of a message type. -/
def contentMismatchError (t : MessageType) : String :=
  "invalid content for " ++ t ++ " message"

/-- The value of a non-empty string of decimal digits. -/
def digitsValue (cs : List Char) : Option Nat :=
  if cs ≠ [] ∧ cs.all Char.isDigit = true then
    some (cs.foldl (fun n c => n * 10 + (c.toNat - 48)) 0)
  else none

/-- The integer a string denotes: an optional sign, then decimal digits. -/
def decimalValue (s : String) : Option Int :=
  match s.data with
  | [] => none
  | c :: cs =>
    if c = '-' then (digitsValue cs).map (fun (v : Nat) => -(Int.ofNat v))
    else if c = '+' then (digitsValue cs).map (fun (v : Nat) => Int.ofNat v)
    else (digitsValue (c :: cs)).map (fun (v : Nat) => Int.ofNat v)

/-- The department ID the specification gives a Feishu `department_id`: the
integer parsed from the string, or zero when it does not parse. -/
def parsedOrZero (s : String) : Int := (decimalValue s).getD 0

end im

/-! ## Sample worlds and clients -/

namespace neturl

/-- Go `stringContainsCTLByte` of `net/url`: some byte is below 0x20 or is 0x7f.
`url.Parse`, and so `http.NewRequest`, rejects such a URL. -/
def stringContainsCTLByte (s : String) : Bool :=
  (strconv.bytes s).any (fun b => decide (b < 32) || decide (b = 127))

end neturl

namespace wecom

/-- A world whose auth endpoint answers `authCode`, token `"T1"` and TTL `ttl`,
and whose business endpoints answer `bizCode` with a fixed directory; a send
request whose URL holds a control character is refused by `http.NewRequest`
(the error text is cut down to its cause). -/
def sampleWorld (authCode ttl bizCode : Int) : World :=
  { nowCheck := 1000
    nowStore := 1000
    gettoken := fun _ =>
      .ok { ErrCode := authCode, ErrMsg := "auth refused", AccessToken := "T1", ExpiresIn := ttl }
    send := fun req =>
      if neturl.stringContainsCTLByte req.url = true then
        .refused "net/url: invalid control character in URL"
      else .ok { ErrCode := bizCode, ErrMsg := "upstream refused" }
    departmentList := fun _ =>
      .ok { ErrCode := bizCode, ErrMsg := "upstream refused"
            Department := [⟨1, "root", 0⟩, ⟨-7, "dev", 1⟩] }
    userList := fun _ =>
      .ok { ErrCode := bizCode, ErrMsg := "upstream refused"
            UserList := [⟨"u1", "Ann", [1, 2]⟩, ⟨"u2", "Bob", []⟩] } }

/-- A client holding token `"T0"` that expires at time 5000. -/
def cachedClient : WeComClient :=
  { CorpID := "corp", CorpSecret := "secret", token := "T0", tokenExp := 5000 }

/-- A client holding, until time 5000, a token with a line feed in it. -/
def brokenTokenClient : WeComClient :=
  { CorpID := "corp", CorpSecret := "secret", token := "T\n0", tokenExp := 5000 }

end wecom

namespace dingtalk

/-- A world whose auth endpoint answers `authCode`, token `"T1"` and TTL `ttl`,
and whose business endpoints answer `bizCode` with a fixed directory. -/
def sampleWorld (authCode ttl bizCode : Int) : World :=
  { nowCheck := 1000
    nowStore := 1000
    gettoken := fun _ =>
      .ok { ErrCode := authCode, ErrMsg := "auth refused", AccessToken := "T1", ExpiresIn := ttl }
    send := fun _ => .ok { ErrCode := bizCode, ErrMsg := "upstream refused" }
    departmentList := fun _ =>
      .ok { ErrCode := bizCode, ErrMsg := "upstream refused"
            Department := [⟨1, "root", 0⟩, ⟨-7, "dev", 1⟩] }
    userList := fun _ =>
      .ok { ErrCode := bizCode, ErrMsg := "upstream refused"
            Userlist := [⟨"u1", "Ann", [1, 2]⟩, ⟨"u2", "Bob", []⟩] } }

/-- A client holding token `"T0"` that expires at time 5000. -/
def cachedClient : DingTalkClient :=
  { AppKey := "key", AppSecret := "secret", token := "T0", tokenExp := 5000 }

end dingtalk

namespace feishu

/-- A world whose auth endpoint answers `authCode`, token `"T1"` and TTL `ttl`,
and whose business endpoints answer `bizCode` with a fixed directory. -/
def sampleWorld (authCode ttl bizCode : Int) : World :=
  { nowCheck := 1000
    nowStore := 1000
    tenantAccessToken := fun _ =>
      .ok { Code := authCode, Msg := "auth refused", TenantAccessToken := "T1", Expire := ttl }
    send := fun _ => .ok { Code := bizCode, Msg := "upstream refused" }
    departments := fun _ =>
      .ok { Code := bizCode, Msg := "upstream refused"
            Items := [⟨"12", "root"⟩, ⟨"od-4e6a", "dev"⟩, ⟨"9223372036854775808", "ops"⟩] }
    users := fun _ =>
      .ok { Code := bizCode, Msg := "upstream refused"
            Items := [⟨"u1", "Ann", ["od-1", "od-2"]⟩] } }

/-- A client holding token `"T0"` that expires at time 5000. -/
def cachedClient : FeishuClient :=
  { AppID := "app", AppSecret := "secret", token := "T0", tokenExp := 5000 }

end feishu

/-! ## Reading error messages -/

namespace im

/-- Whether the characters `word` open the characters `text`. -/
def startsWith : List Char → List Char → Bool
  | _, [] => true
  | [], _ :: _ => false
  | c :: cs, p :: ps => decide (c = p) && startsWith cs ps

/-- Whether the characters `word` occur, in a row, somewhere in `text`. -/
def containsChars : List Char → List Char → Bool
  | [], word => startsWith [] word
  | c :: cs, word => startsWith (c :: cs) word || containsChars cs word

/-- An error message names a word when the word occurs in it. -/
def names (message word : String) : Bool := containsChars message.data word.data

/-- The result of an encoder is an error whose message names both the message
type and the provider. -/
def namesTypeAndProvider {α : Type} (r : Except String α) (t : MessageType)
    (provider : String) : Bool :=
  match r with
  | .error e => names e t && names e provider
  | .ok _ => false

end im

/-! ## Theorems -/

/-! ### Message encoders -/

theorem wecom_convert_matching (msg : im.Message)
    (hm : im.contentMatches msg.Type_ msg.Content = true) :
    ∃ p, wecom.convertMessage msg = .ok p := by
  obtain ⟨t, c⟩ := msg
  cases c <;> simp [im.contentMatches] at hm <;> subst hm <;>
    simp [wecom.convertMessage, im.TextMsg, im.ImageMsg, im.VoiceMsg, im.VideoMsg, im.FileMsg,
      im.TextCardMsg, im.NewsMsg, im.MarkdownMsg]

theorem dingtalk_convert_unsupported (msg : im.Message)
    (h1 : msg.Type_ ≠ im.TextMsg) (h2 : msg.Type_ ≠ im.ImageMsg) :
    dingtalk.convertMessage msg = .error "unsupported message type for DingTalk" := by
  simp [dingtalk.convertMessage, h1, h2]

theorem feishu_convert_unsupported (msg : im.Message)
    (h1 : msg.Type_ ≠ im.TextMsg) (h2 : msg.Type_ ≠ im.ImageMsg) :
    feishu.convertMessage msg = .error "unsupported message type for Feishu" := by
  simp [feishu.convertMessage, h1, h2]

theorem dingtalk_convert_matching (msg : im.Message)
    (ht : msg.Type_ = im.TextMsg ∨ msg.Type_ = im.ImageMsg)
    (hm : im.contentMatches msg.Type_ msg.Content = true) :
    ∃ p, dingtalk.convertMessage msg = .ok p := by
  obtain ⟨t, c⟩ := msg
  rcases ht with ht | ht <;> simp only at ht <;> subst ht <;>
    cases c <;> simp [im.contentMatches, im.TextMsg, im.ImageMsg, im.VoiceMsg, im.VideoMsg,
      im.FileMsg, im.TextCardMsg, im.NewsMsg, im.MarkdownMsg] at hm <;>
    simp [dingtalk.convertMessage, im.TextMsg, im.ImageMsg]

theorem feishu_convert_matching (msg : im.Message)
    (ht : msg.Type_ = im.TextMsg ∨ msg.Type_ = im.ImageMsg)
    (hm : im.contentMatches msg.Type_ msg.Content = true) :
    ∃ p, feishu.convertMessage msg = .ok p := by
  obtain ⟨t, c⟩ := msg
  rcases ht with ht | ht <;> simp only at ht <;> subst ht <;>
    cases c <;> simp [im.contentMatches, im.TextMsg, im.ImageMsg, im.VoiceMsg, im.VideoMsg,
      im.FileMsg, im.TextCardMsg, im.NewsMsg, im.MarkdownMsg] at hm <;>
    simp [feishu.convertMessage, im.TextMsg, im.ImageMsg]

/-- C1. Capability matrix of `convertMessage`. For every message: if its type is
one of the eight declared types and its content has the matching shape, the
WeCom encoder succeeds; if its type is neither text nor image, the DingTalk and
the Feishu encoder fail with their unsupported-type error, whatever the content;
if its type is text or image and the content matches, both succeed. -/
theorem capability_matrix (msg : im.Message) :
    (msg.Type_ ∈ im.declaredTypes → im.contentMatches msg.Type_ msg.Content = true →
      ∃ p, wecom.convertMessage msg = .ok p) ∧
    (msg.Type_ ≠ im.TextMsg → msg.Type_ ≠ im.ImageMsg →
      dingtalk.convertMessage msg = .error "unsupported message type for DingTalk" ∧
      feishu.convertMessage msg = .error "unsupported message type for Feishu") ∧
    ((msg.Type_ = im.TextMsg ∨ msg.Type_ = im.ImageMsg) →
      im.contentMatches msg.Type_ msg.Content = true →
      (∃ p, dingtalk.convertMessage msg = .ok p) ∧ (∃ p, feishu.convertMessage msg = .ok p)) :=
  ⟨fun _ hm => wecom_convert_matching msg hm,
   fun h1 h2 => ⟨dingtalk_convert_unsupported msg h1 h2, feishu_convert_unsupported msg h1 h2⟩,
   fun ht hm => ⟨dingtalk_convert_matching msg ht hm, feishu_convert_matching msg ht hm⟩⟩

/-- A voice message with a `VoiceContent` is encoded by WeCom and refused by
DingTalk and Feishu. -/
theorem capability_matrix_witness :
    (∃ p, wecom.convertMessage ⟨im.VoiceMsg, .voice ⟨"m1", 3⟩⟩ = .ok p) ∧
    dingtalk.convertMessage ⟨im.VoiceMsg, .voice ⟨"m1", 3⟩⟩
      = .error "unsupported message type for DingTalk" ∧
    feishu.convertMessage ⟨im.VoiceMsg, .voice ⟨"m1", 3⟩⟩
      = .error "unsupported message type for Feishu" :=
  ⟨(capability_matrix ⟨im.VoiceMsg, .voice ⟨"m1", 3⟩⟩).1 (by decide) (by decide),
   (capability_matrix ⟨im.VoiceMsg, .voice ⟨"m1", 3⟩⟩).2.1 (by decide) (by decide)⟩

theorem wecom_convert_mismatch (msg : im.Message) (ht : msg.Type_ ∈ im.declaredTypes)
    (hm : im.contentMatches msg.Type_ msg.Content = false) :
    wecom.convertMessage msg = .error (im.contentMismatchError msg.Type_) := by
  obtain ⟨t, c⟩ := msg
  simp only [im.declaredTypes, List.mem_cons, List.mem_singleton, List.not_mem_nil, or_false] at ht
  rcases ht with ht | ht | ht | ht | ht | ht | ht | ht <;> subst ht <;>
    cases c <;> simp [im.contentMatches, im.TextMsg, im.ImageMsg, im.VoiceMsg, im.VideoMsg,
      im.FileMsg, im.TextCardMsg, im.NewsMsg, im.MarkdownMsg] at hm <;>
    simp [wecom.convertMessage, im.TextMsg, im.ImageMsg, im.VoiceMsg, im.VideoMsg, im.FileMsg,
      im.TextCardMsg, im.NewsMsg, im.MarkdownMsg] <;> decide

theorem dingtalk_convert_mismatch (msg : im.Message)
    (ht : msg.Type_ = im.TextMsg ∨ msg.Type_ = im.ImageMsg)
    (hm : im.contentMatches msg.Type_ msg.Content = false) :
    dingtalk.convertMessage msg = .error (im.contentMismatchError msg.Type_) := by
  obtain ⟨t, c⟩ := msg
  rcases ht with ht | ht <;> simp only at ht <;> subst ht <;>
    cases c <;> simp [im.contentMatches, im.TextMsg, im.ImageMsg, im.VoiceMsg, im.VideoMsg,
      im.FileMsg, im.TextCardMsg, im.NewsMsg, im.MarkdownMsg] at hm <;>
    simp [dingtalk.convertMessage, im.TextMsg, im.ImageMsg] <;> decide

theorem feishu_convert_mismatch (msg : im.Message)
    (ht : msg.Type_ = im.TextMsg ∨ msg.Type_ = im.ImageMsg)
    (hm : im.contentMatches msg.Type_ msg.Content = false) :
    feishu.convertMessage msg = .error (im.contentMismatchError msg.Type_) := by
  obtain ⟨t, c⟩ := msg
  rcases ht with ht | ht <;> simp only at ht <;> subst ht <;>
    cases c <;> simp [im.contentMatches, im.TextMsg, im.ImageMsg, im.VoiceMsg, im.VideoMsg,
      im.FileMsg, im.TextCardMsg, im.NewsMsg, im.MarkdownMsg] at hm <;>
    simp [feishu.convertMessage, im.TextMsg, im.ImageMsg] <;> decide

/-- C2. Type/content mismatch. For every message whose content is not of the
shape matching its type: if the type is one of the eight types WeCom supports,
the WeCom encoder returns the content-mismatch error of that type; if the type
is text or image (the types DingTalk and Feishu support), the DingTalk and the
Feishu encoder return it too. The result is the error alone: no payload is
returned, and the encoder is a total function (no crash). -/
theorem content_mismatch_rejected (msg : im.Message)
    (hm : im.contentMatches msg.Type_ msg.Content = false) :
    (msg.Type_ ∈ im.declaredTypes →
      wecom.convertMessage msg = .error (im.contentMismatchError msg.Type_)) ∧
    ((msg.Type_ = im.TextMsg ∨ msg.Type_ = im.ImageMsg) →
      dingtalk.convertMessage msg = .error (im.contentMismatchError msg.Type_) ∧
      feishu.convertMessage msg = .error (im.contentMismatchError msg.Type_)) :=
  ⟨fun ht => wecom_convert_mismatch msg ht hm,
   fun ht => ⟨dingtalk_convert_mismatch msg ht hm, feishu_convert_mismatch msg ht hm⟩⟩

/-- An image message carrying a plain string is refused by the three encoders
with "invalid content for image message". -/
theorem content_mismatch_rejected_witness :
    wecom.convertMessage ⟨im.ImageMsg, .str "not-an-image"⟩
      = .error "invalid content for image message" ∧
    dingtalk.convertMessage ⟨im.ImageMsg, .str "not-an-image"⟩
      = .error "invalid content for image message" ∧
    feishu.convertMessage ⟨im.ImageMsg, .str "not-an-image"⟩
      = .error "invalid content for image message" :=
  ⟨(content_mismatch_rejected ⟨im.ImageMsg, .str "not-an-image"⟩ (by decide)).1 (by decide),
   (content_mismatch_rejected ⟨im.ImageMsg, .str "not-an-image"⟩ (by decide)).2 (by decide)⟩

/-! ### Token cache -/

theorem wrap64_of_isInt64 (x : Int) (h : isInt64 x) : wrap64 x = x := by
  unfold isInt64 at h
  unfold wrap64
  omega

theorem isInt64_ttl (n : Int) (h : isInt64 ((n - 60) * 1000000000)) : isInt64 (n - 60) := by
  unfold isInt64 at *
  omega

theorem wecom_refresh (env : wecom.World) (w : wecom.WeComClient) (res : wecom.TokenRes)
    (hstale : w.token = "" ∨ w.tokenExp ≤ env.nowCheck)
    (hrep : env.gettoken (wecom.tokenRequest w) = .ok res) (hcode : res.ErrCode = 0)
    (hrange : isInt64 ((res.ExpiresIn - 60) * 1000000000)) :
    wecom.getAccessToken env w =
      { result := .ok res.AccessToken
        state := { w with token := res.AccessToken
                          tokenExp := env.nowStore + (res.ExpiresIn - 60) * 1000000000 }
        calls := [wecom.tokenRequest w] } := by
  have hs : ¬ (w.token ≠ "" ∧ time.Before env.nowCheck w.tokenExp = true) := by
    simp only [time.Before, decide_eq_true_eq]
    rintro ⟨h1, h2⟩
    rcases hstale with h | h
    · exact h1 h
    · exact absurd h2 (not_lt.mpr h)
  have hrep2 : env.gettoken
      { method := "GET", url := wecom.tokenURL w, body := none, headers := [] } = .ok res := hrep
  simp only [wecom.getAccessToken, if_neg hs, utils.HttpGetJSON, hrep2, hcode, ne_eq,
    not_true_eq_false, if_false, time.Add, time.Second, wecom.tokenRequest,
    wrap64_of_isInt64 _ (isInt64_ttl _ hrange), wrap64_of_isInt64 _ hrange]

theorem dingtalk_refresh (env : dingtalk.World) (d : dingtalk.DingTalkClient)
    (res : dingtalk.TokenRes)
    (hstale : d.token = "" ∨ d.tokenExp ≤ env.nowCheck)
    (hrep : env.gettoken (dingtalk.tokenRequest d) = .ok res) (hcode : res.ErrCode = 0)
    (hrange : isInt64 ((res.ExpiresIn - 60) * 1000000000)) :
    dingtalk.getAccessToken env d =
      { result := .ok res.AccessToken
        state := { d with token := res.AccessToken
                          tokenExp := env.nowStore + (res.ExpiresIn - 60) * 1000000000 }
        calls := [dingtalk.tokenRequest d] } := by
  have hs : ¬ (d.token ≠ "" ∧ time.Before env.nowCheck d.tokenExp = true) := by
    simp only [time.Before, decide_eq_true_eq]
    rintro ⟨h1, h2⟩
    rcases hstale with h | h
    · exact h1 h
    · exact absurd h2 (not_lt.mpr h)
  have hrep2 : env.gettoken
      { method := "GET", url := dingtalk.tokenURL d, body := none, headers := [] } = .ok res := hrep
  simp only [dingtalk.getAccessToken, if_neg hs, http.Get, hrep2, hcode, ne_eq,
    not_true_eq_false, if_false, time.Add, time.Second, dingtalk.tokenRequest,
    wrap64_of_isInt64 _ (isInt64_ttl _ hrange), wrap64_of_isInt64 _ hrange]

theorem feishu_refresh (env : feishu.World) (f : feishu.FeishuClient) (res : feishu.TokenRes)
    (hstale : f.token = "" ∨ f.tokenExp ≤ env.nowCheck)
    (hrep : env.tenantAccessToken (feishu.tokenRequest f) = .ok res) (hcode : res.Code = 0)
    (hrange : isInt64 ((res.Expire - 60) * 1000000000)) :
    feishu.getAccessToken env f =
      { result := .ok res.TenantAccessToken
        state := { f with token := res.TenantAccessToken
                          tokenExp := env.nowStore + (res.Expire - 60) * 1000000000 }
        calls := [feishu.tokenRequest f] } := by
  have hs : ¬ (f.token ≠ "" ∧ time.Before env.nowCheck f.tokenExp = true) := by
    simp only [time.Before, decide_eq_true_eq]
    rintro ⟨h1, h2⟩
    rcases hstale with h | h
    · exact h1 h
    · exact absurd h2 (not_lt.mpr h)
  have hrep2 : env.tenantAccessToken
      { method := "POST", url := feishu.tokenURL
        body := some (.strMap [("app_id", f.AppID), ("app_secret", f.AppSecret)])
        headers := [("Content-Type", "application/json")] } = .ok res := hrep
  simp only [feishu.getAccessToken, if_neg hs, http.Post, hrep2, hcode, ne_eq,
    not_true_eq_false, if_false, time.Add, time.Second, feishu.tokenRequest,
    wrap64_of_isInt64 _ (isInt64_ttl _ hrange), wrap64_of_isInt64 _ hrange]

/-- C3, as the code has it. Token refresh, for each of the three adapters: when
`getAccessToken` runs with an empty token or with the clock at or past
`ExpiresAt`, and the auth endpoint answers code 0, token `t` and TTL `n` with
`(n - 60)` seconds inside the `int64` nanosecond range of `time.Duration`, then
the auth request is the one request issued, the adapter stores `Value = t` and
`ExpiresAt = now + (n - 60)` seconds, `now` being the clock reading taken when
the reply is stored, and `t` is returned. -/
theorem token_refresh_in_duration_range :
    (∀ (env : wecom.World) (w : wecom.WeComClient) (res : wecom.TokenRes),
      (w.token = "" ∨ w.tokenExp ≤ env.nowCheck) →
      env.gettoken (wecom.tokenRequest w) = .ok res → res.ErrCode = 0 →
      isInt64 ((res.ExpiresIn - 60) * 1000000000) →
      wecom.getAccessToken env w =
        { result := .ok res.AccessToken
          state := { w with token := res.AccessToken
                            tokenExp := env.nowStore + (res.ExpiresIn - 60) * 1000000000 }
          calls := [wecom.tokenRequest w] }) ∧
    (∀ (env : dingtalk.World) (d : dingtalk.DingTalkClient) (res : dingtalk.TokenRes),
      (d.token = "" ∨ d.tokenExp ≤ env.nowCheck) →
      env.gettoken (dingtalk.tokenRequest d) = .ok res → res.ErrCode = 0 →
      isInt64 ((res.ExpiresIn - 60) * 1000000000) →
      dingtalk.getAccessToken env d =
        { result := .ok res.AccessToken
          state := { d with token := res.AccessToken
                            tokenExp := env.nowStore + (res.ExpiresIn - 60) * 1000000000 }
          calls := [dingtalk.tokenRequest d] }) ∧
    (∀ (env : feishu.World) (f : feishu.FeishuClient) (res : feishu.TokenRes),
      (f.token = "" ∨ f.tokenExp ≤ env.nowCheck) →
      env.tenantAccessToken (feishu.tokenRequest f) = .ok res → res.Code = 0 →
      isInt64 ((res.Expire - 60) * 1000000000) →
      feishu.getAccessToken env f =
        { result := .ok res.TenantAccessToken
          state := { f with token := res.TenantAccessToken
                            tokenExp := env.nowStore + (res.Expire - 60) * 1000000000 }
          calls := [feishu.tokenRequest f] }) :=
  ⟨wecom_refresh, dingtalk_refresh, feishu_refresh⟩

/-- A fresh WeCom client at time 1000, TTL 7200: one request, `"T1"` stored with
expiry 1000 ns + 7140 s. -/
theorem token_refresh_in_duration_range_witness :
    wecom.getAccessToken (wecom.sampleWorld 0 7200 0) (wecom.NewWeComClient "corp" "secret") =
      { result := .ok "T1"
        state := { CorpID := "corp", CorpSecret := "secret", token := "T1"
                   tokenExp := 1000 + (7200 - 60) * 1000000000 }
        calls := [wecom.tokenRequest (wecom.NewWeComClient "corp" "secret")] } :=
  token_refresh_in_duration_range.1 (wecom.sampleWorld 0 7200 0)
    (wecom.NewWeComClient "corp" "secret")
    { ErrCode := 0, ErrMsg := "auth refused", AccessToken := "T1", ExpiresIn := 7200 }
    (Or.inl rfl) rfl rfl (by decide)

/-- C3 as stated fails: with TTL `n = 10000000000` seconds the product
`(n - 60) * time.Second` leaves the `int64` range, and each adapter stores an
expiry 8446744133709551616 ns before the clock reading instead of
`now + (n - 60)` seconds. -/
theorem token_refresh_overflow :
    (wecom.getAccessToken (wecom.sampleWorld 0 10000000000 0)
        (wecom.NewWeComClient "corp" "secret")).state.tokenExp
      = 1000 - 8446744133709551616 ∧
    (wecom.getAccessToken (wecom.sampleWorld 0 10000000000 0)
        (wecom.NewWeComClient "corp" "secret")).state.tokenExp
      ≠ 1000 + (10000000000 - 60) * 1000000000 ∧
    (dingtalk.getAccessToken (dingtalk.sampleWorld 0 10000000000 0)
        (dingtalk.NewDingTalkClient "key" "secret")).state.tokenExp
      ≠ 1000 + (10000000000 - 60) * 1000000000 ∧
    (feishu.getAccessToken (feishu.sampleWorld 0 10000000000 0)
        (feishu.NewFeishuClient "app" "secret")).state.tokenExp
      ≠ 1000 + (10000000000 - 60) * 1000000000 := by
  refine ⟨?_, ?_, ?_, ?_⟩ <;> decide

theorem wecom_cached (env : wecom.World) (w : wecom.WeComClient)
    (hne : w.token ≠ "") (hfresh : env.nowCheck < w.tokenExp) :
    wecom.getAccessToken env w = { result := .ok w.token, state := w, calls := [] } := by
  have hs : w.token ≠ "" ∧ time.Before env.nowCheck w.tokenExp = true := by
    simp only [time.Before, decide_eq_true_eq]
    exact ⟨hne, hfresh⟩
  simp only [wecom.getAccessToken, if_pos hs]

theorem dingtalk_cached (env : dingtalk.World) (d : dingtalk.DingTalkClient)
    (hne : d.token ≠ "") (hfresh : env.nowCheck < d.tokenExp) :
    dingtalk.getAccessToken env d = { result := .ok d.token, state := d, calls := [] } := by
  have hs : d.token ≠ "" ∧ time.Before env.nowCheck d.tokenExp = true := by
    simp only [time.Before, decide_eq_true_eq]
    exact ⟨hne, hfresh⟩
  simp only [dingtalk.getAccessToken, if_pos hs]

theorem feishu_cached (env : feishu.World) (f : feishu.FeishuClient)
    (hne : f.token ≠ "") (hfresh : env.nowCheck < f.tokenExp) :
    feishu.getAccessToken env f = { result := .ok f.token, state := f, calls := [] } := by
  have hs : f.token ≠ "" ∧ time.Before env.nowCheck f.tokenExp = true := by
    simp only [time.Before, decide_eq_true_eq]
    exact ⟨hne, hfresh⟩
  simp only [feishu.getAccessToken, if_pos hs]

/-- C4. Cached token reuse, for each of the three adapters: in every state whose
token is non-empty and whose `ExpiresAt` is strictly after the clock reading,
`getAccessToken` returns exactly the stored token, issues no request, and leaves
the adapter (token value and `ExpiresAt` included) unchanged. -/
theorem cached_token_reuse :
    (∀ (env : wecom.World) (w : wecom.WeComClient),
      w.token ≠ "" → env.nowCheck < w.tokenExp →
      wecom.getAccessToken env w = { result := .ok w.token, state := w, calls := [] }) ∧
    (∀ (env : dingtalk.World) (d : dingtalk.DingTalkClient),
      d.token ≠ "" → env.nowCheck < d.tokenExp →
      dingtalk.getAccessToken env d = { result := .ok d.token, state := d, calls := [] }) ∧
    (∀ (env : feishu.World) (f : feishu.FeishuClient),
      f.token ≠ "" → env.nowCheck < f.tokenExp →
      feishu.getAccessToken env f = { result := .ok f.token, state := f, calls := [] }) :=
  ⟨wecom_cached, dingtalk_cached, feishu_cached⟩

/-- A Feishu client holding `"T0"` until 5000, asked at time 1000: `"T0"`, no
request, same state. -/
theorem cached_token_reuse_witness :
    feishu.getAccessToken (feishu.sampleWorld 0 7200 0) feishu.cachedClient =
      { result := .ok "T0", state := feishu.cachedClient, calls := [] } :=
  cached_token_reuse.2.2 (feishu.sampleWorld 0 7200 0) feishu.cachedClient
    (by decide) (by decide)

/-! ### Upstream failures -/

theorem wecom_auth_refused (env : wecom.World) (w : wecom.WeComClient) (res : wecom.TokenRes)
    (hstale : w.token = "" ∨ w.tokenExp ≤ env.nowCheck)
    (hrep : env.gettoken (wecom.tokenRequest w) = .ok res) (hcode : res.ErrCode ≠ 0) :
    wecom.getAccessToken env w =
      { result := .error res.ErrMsg, state := w, calls := [wecom.tokenRequest w] } := by
  have hs : ¬ (w.token ≠ "" ∧ time.Before env.nowCheck w.tokenExp = true) := by
    simp only [time.Before, decide_eq_true_eq]
    rintro ⟨h1, h2⟩
    rcases hstale with h | h
    · exact h1 h
    · exact absurd h2 (not_lt.mpr h)
  have hrep2 : env.gettoken
      { method := "GET", url := wecom.tokenURL w, body := none, headers := [] } = .ok res := hrep
  simp only [wecom.getAccessToken, if_neg hs, utils.HttpGetJSON, hrep2, ne_eq, hcode,
    not_false_eq_true, if_true, wecom.tokenRequest]

theorem wecom_ops_auth_refused (env : wecom.World) (w : wecom.WeComClient) (res : wecom.TokenRes)
    (hstale : w.token = "" ∨ w.tokenExp ≤ env.nowCheck)
    (hrep : env.gettoken (wecom.tokenRequest w) = .ok res) (hcode : res.ErrCode ≠ 0) :
    (∀ us ds msg, wecom.SendMessage env w us ds msg =
      { result := .error res.ErrMsg, state := w, calls := [wecom.tokenRequest w] }) ∧
    wecom.GetDepartments env w =
      { result := .error res.ErrMsg, state := w, calls := [wecom.tokenRequest w] } ∧
    wecom.GetUsers env w =
      { result := .error res.ErrMsg, state := w, calls := [wecom.tokenRequest w] } := by
  have h := wecom_auth_refused env w res hstale hrep hcode
  refine ⟨fun us ds msg => ?_, ?_, ?_⟩
  · simp only [wecom.SendMessage, h]
  · simp only [wecom.GetDepartments, h]
  · simp only [wecom.GetUsers, h]

theorem wecom_send_refused (env : wecom.World) (w : wecom.WeComClient) (us ds : List String)
    (msg : im.Message) (tok : String) (payload : List (String × Value)) (res : wecom.SendRes)
    (htok : (wecom.getAccessToken env w).result = .ok tok)
    (hconv : wecom.convertMessage msg = .ok payload)
    (hrep : env.send (wecom.sendRequest tok us ds msg payload) = .ok res)
    (hcode : res.ErrCode ≠ 0) :
    wecom.SendMessage env w us ds msg =
      { result := .error res.ErrMsg, state := (wecom.getAccessToken env w).state
        calls := (wecom.getAccessToken env w).calls ++ [wecom.sendRequest tok us ds msg payload] } := by
  have hrep2 : env.send
      { method := "POST"
        url := "https://qyapi.weixin.qq.com/cgi-bin/message/send?access_token=" ++ tok
        body := some (.obj (wecom.sendBody us ds msg payload))
        headers := [("Content-Type", "application/json;charset=utf-8")] } = .ok res := hrep
  simp only [wecom.SendMessage, htok, hconv, utils.HttpPostJSON, List.foldl_nil, hrep2, ne_eq,
    hcode, not_false_eq_true, if_true, wecom.sendRequest]

theorem wecom_departments_refused (env : wecom.World) (w : wecom.WeComClient) (tok : String)
    (res : wecom.DeptRes)
    (htok : (wecom.getAccessToken env w).result = .ok tok)
    (hrep : env.departmentList (wecom.departmentListRequest tok) = .ok res)
    (hcode : res.ErrCode ≠ 0) :
    wecom.GetDepartments env w =
      { result := .error res.ErrMsg, state := (wecom.getAccessToken env w).state
        calls := (wecom.getAccessToken env w).calls ++ [wecom.departmentListRequest tok] } := by
  have hrep2 : env.departmentList
      { method := "GET"
        url := "https://qyapi.weixin.qq.com/cgi-bin/department/list?access_token=" ++ tok
        body := none, headers := [] } = .ok res := hrep
  simp only [wecom.GetDepartments, htok, utils.HttpGetJSON, hrep2, ne_eq, hcode,
    not_false_eq_true, if_true, wecom.departmentListRequest]

theorem wecom_users_refused (env : wecom.World) (w : wecom.WeComClient) (tok : String)
    (res : wecom.UserRes)
    (htok : (wecom.getAccessToken env w).result = .ok tok)
    (hrep : env.userList (wecom.userListRequest tok) = .ok res)
    (hcode : res.ErrCode ≠ 0) :
    wecom.GetUsers env w =
      { result := .error res.ErrMsg, state := (wecom.getAccessToken env w).state
        calls := (wecom.getAccessToken env w).calls ++ [wecom.userListRequest tok] } := by
  have hrep2 : env.userList
      { method := "GET"
        url := "https://qyapi.weixin.qq.com/cgi-bin/user/list?access_token=" ++ tok
          ++ "&department_id=1&fetch_child=1"
        body := none, headers := [] } = .ok res := hrep
  simp only [wecom.GetUsers, htok, utils.HttpGetJSON, hrep2, ne_eq, hcode,
    not_false_eq_true, if_true, wecom.userListRequest]

theorem dingtalk_auth_refused (env : dingtalk.World) (d : dingtalk.DingTalkClient)
    (res : dingtalk.TokenRes)
    (hstale : d.token = "" ∨ d.tokenExp ≤ env.nowCheck)
    (hrep : env.gettoken (dingtalk.tokenRequest d) = .ok res) (hcode : res.ErrCode ≠ 0) :
    dingtalk.getAccessToken env d =
      { result := .error res.ErrMsg, state := d, calls := [dingtalk.tokenRequest d] } := by
  have hs : ¬ (d.token ≠ "" ∧ time.Before env.nowCheck d.tokenExp = true) := by
    simp only [time.Before, decide_eq_true_eq]
    rintro ⟨h1, h2⟩
    rcases hstale with h | h
    · exact h1 h
    · exact absurd h2 (not_lt.mpr h)
  have hrep2 : env.gettoken
      { method := "GET", url := dingtalk.tokenURL d, body := none, headers := [] } = .ok res := hrep
  simp only [dingtalk.getAccessToken, if_neg hs, http.Get, hrep2, ne_eq, hcode,
    not_false_eq_true, if_true, dingtalk.tokenRequest]

theorem dingtalk_ops_auth_refused (env : dingtalk.World) (d : dingtalk.DingTalkClient)
    (res : dingtalk.TokenRes)
    (hstale : d.token = "" ∨ d.tokenExp ≤ env.nowCheck)
    (hrep : env.gettoken (dingtalk.tokenRequest d) = .ok res) (hcode : res.ErrCode ≠ 0) :
    (∀ us ds msg, dingtalk.SendMessage env d us ds msg =
      { result := .error res.ErrMsg, state := d, calls := [dingtalk.tokenRequest d] }) ∧
    dingtalk.GetDepartments env d =
      { result := .error res.ErrMsg, state := d, calls := [dingtalk.tokenRequest d] } ∧
    dingtalk.GetUsers env d =
      { result := .error res.ErrMsg, state := d, calls := [dingtalk.tokenRequest d] } := by
  have h := dingtalk_auth_refused env d res hstale hrep hcode
  refine ⟨fun us ds msg => ?_, ?_, ?_⟩
  · simp only [dingtalk.SendMessage, h]
  · simp only [dingtalk.GetDepartments, h]
  · simp only [dingtalk.GetUsers, h]

theorem dingtalk_send_refused (env : dingtalk.World) (d : dingtalk.DingTalkClient)
    (us ds : List String) (msg : im.Message) (tok : String) (payload : List (String × Value))
    (res : dingtalk.SendRes)
    (htok : (dingtalk.getAccessToken env d).result = .ok tok)
    (hus : us ≠ [])
    (hconv : dingtalk.convertMessage msg = .ok payload)
    (hrep : env.send (dingtalk.sendRequest tok us payload) = .ok res)
    (hcode : res.ErrCode ≠ 0) :
    dingtalk.SendMessage env d us ds msg =
      { result := .error res.ErrMsg, state := (dingtalk.getAccessToken env d).state
        calls := (dingtalk.getAccessToken env d).calls ++ [dingtalk.sendRequest tok us payload] } := by
  have hlen : ¬ us.length = 0 := by
    intro h
    exact hus (List.length_eq_zero.mp h)
  have hset : mapSet [("agent_id", Value.num 123456789),
      ("userid_list", Value.str (strings.Join us ",")), ("msg", Value.null)] "msg"
      (Value.obj payload) = [("agent_id", Value.num 123456789),
      ("userid_list", Value.str (strings.Join us ",")), ("msg", Value.obj payload)] := by
    simp [mapSet]
  have hrep2 : env.send
      { method := "POST"
        url := "https://oapi.dingtalk.com/topapi/message/corpconversation/asyncsend_v2?access_token="
          ++ tok
        body := some (.obj [("agent_id", .num 123456789),
          ("userid_list", .str (strings.Join us ",")), ("msg", .obj payload)])
        headers := [("Content-Type", "application/json")] } = .ok res := hrep
  simp only [dingtalk.SendMessage, htok, if_neg hlen, hconv, hset, http.Post, hrep2, ne_eq,
    hcode, not_false_eq_true, if_true, dingtalk.sendRequest]

theorem dingtalk_departments_refused (env : dingtalk.World) (d : dingtalk.DingTalkClient)
    (tok : String) (res : dingtalk.DeptRes)
    (htok : (dingtalk.getAccessToken env d).result = .ok tok)
    (hrep : env.departmentList (dingtalk.departmentListRequest tok) = .ok res)
    (hcode : res.ErrCode ≠ 0) :
    dingtalk.GetDepartments env d =
      { result := .error res.ErrMsg, state := (dingtalk.getAccessToken env d).state
        calls := (dingtalk.getAccessToken env d).calls ++ [dingtalk.departmentListRequest tok] } := by
  have hrep2 : env.departmentList
      { method := "GET"
        url := "https://oapi.dingtalk.com/department/list?access_token=" ++ tok
        body := none, headers := [] } = .ok res := hrep
  simp only [dingtalk.GetDepartments, htok, http.Get, hrep2, ne_eq, hcode,
    not_false_eq_true, if_true, dingtalk.departmentListRequest]

theorem dingtalk_users_refused (env : dingtalk.World) (d : dingtalk.DingTalkClient)
    (tok : String) (res : dingtalk.UserRes)
    (htok : (dingtalk.getAccessToken env d).result = .ok tok)
    (hrep : env.userList (dingtalk.userListRequest tok) = .ok res)
    (hcode : res.ErrCode ≠ 0) :
    dingtalk.GetUsers env d =
      { result := .error res.ErrMsg, state := (dingtalk.getAccessToken env d).state
        calls := (dingtalk.getAccessToken env d).calls ++ [dingtalk.userListRequest tok] } := by
  have hrep2 : env.userList
      { method := "GET"
        url := "https://oapi.dingtalk.com/user/listbypage?access_token=" ++ tok
          ++ "&department_id=1&offset=0&size=100"
        body := none, headers := [] } = .ok res := hrep
  simp only [dingtalk.GetUsers, htok, http.Get, hrep2, ne_eq, hcode,
    not_false_eq_true, if_true, dingtalk.userListRequest]

theorem feishu_auth_refused (env : feishu.World) (f : feishu.FeishuClient) (res : feishu.TokenRes)
    (hstale : f.token = "" ∨ f.tokenExp ≤ env.nowCheck)
    (hrep : env.tenantAccessToken (feishu.tokenRequest f) = .ok res) (hcode : res.Code ≠ 0) :
    feishu.getAccessToken env f =
      { result := .error res.Msg, state := f, calls := [feishu.tokenRequest f] } := by
  have hs : ¬ (f.token ≠ "" ∧ time.Before env.nowCheck f.tokenExp = true) := by
    simp only [time.Before, decide_eq_true_eq]
    rintro ⟨h1, h2⟩
    rcases hstale with h | h
    · exact h1 h
    · exact absurd h2 (not_lt.mpr h)
  have hrep2 : env.tenantAccessToken
      { method := "POST", url := feishu.tokenURL
        body := some (.strMap [("app_id", f.AppID), ("app_secret", f.AppSecret)])
        headers := [("Content-Type", "application/json")] } = .ok res := hrep
  simp only [feishu.getAccessToken, if_neg hs, http.Post, hrep2, ne_eq, hcode,
    not_false_eq_true, if_true, feishu.tokenRequest]

theorem feishu_ops_auth_refused (env : feishu.World) (f : feishu.FeishuClient)
    (res : feishu.TokenRes)
    (hstale : f.token = "" ∨ f.tokenExp ≤ env.nowCheck)
    (hrep : env.tenantAccessToken (feishu.tokenRequest f) = .ok res) (hcode : res.Code ≠ 0) :
    (∀ us ds msg, feishu.SendMessage env f us ds msg =
      { result := .error res.Msg, state := f, calls := [feishu.tokenRequest f] }) ∧
    feishu.GetDepartments env f =
      { result := .error res.Msg, state := f, calls := [feishu.tokenRequest f] } ∧
    feishu.GetUsers env f =
      { result := .error res.Msg, state := f, calls := [feishu.tokenRequest f] } := by
  have h := feishu_auth_refused env f res hstale hrep hcode
  refine ⟨fun us ds msg => ?_, ?_, ?_⟩
  · simp only [feishu.SendMessage, h]
  · simp only [feishu.GetDepartments, h]
  · simp only [feishu.GetUsers, h]

theorem feishu_send_refused (env : feishu.World) (f : feishu.FeishuClient)
    (u : String) (us ds : List String) (msg : im.Message) (tok : String)
    (content : List (String × Value)) (res : feishu.SendRes)
    (htok : (feishu.getAccessToken env f).result = .ok tok)
    (hconv : feishu.convertMessage msg = .ok content)
    (hrep : env.send (feishu.sendRequest tok u msg content) = .ok res)
    (hcode : res.Code ≠ 0) :
    feishu.SendMessage env f (u :: us) ds msg =
      { result := .error res.Msg, state := (feishu.getAccessToken env f).state
        calls := (feishu.getAccessToken env f).calls ++ [feishu.sendRequest tok u msg content] } := by
  simp only [feishu.SendMessage, htok, hconv, http.Do, hrep, ne_eq, hcode,
    not_false_eq_true, if_true]

theorem feishu_departments_refused (env : feishu.World) (f : feishu.FeishuClient)
    (tok : String) (res : feishu.DeptRes)
    (htok : (feishu.getAccessToken env f).result = .ok tok)
    (hrep : env.departments (feishu.departmentsRequest tok) = .ok res)
    (hcode : res.Code ≠ 0) :
    feishu.GetDepartments env f =
      { result := .error res.Msg, state := (feishu.getAccessToken env f).state
        calls := (feishu.getAccessToken env f).calls ++ [feishu.departmentsRequest tok] } := by
  have hrep2 : env.departments
      { method := "GET", url := "https://open.feishu.cn/open-apis/contact/v3/departments"
        body := none, headers := [("Authorization", "Bearer " ++ tok)] } = .ok res := hrep
  simp only [feishu.GetDepartments, htok, http.Do, hrep2, ne_eq, hcode,
    not_false_eq_true, if_true, feishu.departmentsRequest, mapSet]

theorem feishu_users_refused (env : feishu.World) (f : feishu.FeishuClient)
    (tok : String) (res : feishu.UserRes)
    (htok : (feishu.getAccessToken env f).result = .ok tok)
    (hrep : env.users (feishu.usersRequest tok) = .ok res)
    (hcode : res.Code ≠ 0) :
    feishu.GetUsers env f =
      { result := .error res.Msg, state := (feishu.getAccessToken env f).state
        calls := (feishu.getAccessToken env f).calls ++ [feishu.usersRequest tok] } := by
  have hrep2 : env.users
      { method := "GET", url := "https://open.feishu.cn/open-apis/contact/v3/users?page_size=100"
        body := none, headers := [("Authorization", "Bearer " ++ tok)] } = .ok res := hrep
  simp only [feishu.GetUsers, htok, http.Do, hrep2, ne_eq, hcode,
    not_false_eq_true, if_true, feishu.usersRequest, mapSet]

/-- C5. Upstream failure propagation, for each adapter and each operation.
Auth failure: when the token must be fetched and the auth endpoint answers a
nonzero code with message `m`, each of `SendMessage`, `GetDepartments` and
`GetUsers` returns the error `m` (no list), the auth request is the only request
issued, and the adapter, token and `ExpiresAt` included, is unchanged.
Business failure: when the token is in hand and the business endpoint answers a
nonzero code with message `m`, the operation returns the error `m` (no list) and
the business request is the last request issued. -/
theorem upstream_failure_propagation :
    (∀ (env : wecom.World) (w : wecom.WeComClient) (res : wecom.TokenRes),
      (w.token = "" ∨ w.tokenExp ≤ env.nowCheck) →
      env.gettoken (wecom.tokenRequest w) = .ok res → res.ErrCode ≠ 0 →
      (∀ us ds msg, wecom.SendMessage env w us ds msg =
        { result := .error res.ErrMsg, state := w, calls := [wecom.tokenRequest w] }) ∧
      wecom.GetDepartments env w =
        { result := .error res.ErrMsg, state := w, calls := [wecom.tokenRequest w] } ∧
      wecom.GetUsers env w =
        { result := .error res.ErrMsg, state := w, calls := [wecom.tokenRequest w] }) ∧
    (∀ (env : wecom.World) (w : wecom.WeComClient) (us ds : List String) (msg : im.Message)
        (tok : String) (payload : List (String × Value)) (res : wecom.SendRes),
      (wecom.getAccessToken env w).result = .ok tok →
      wecom.convertMessage msg = .ok payload →
      env.send (wecom.sendRequest tok us ds msg payload) = .ok res → res.ErrCode ≠ 0 →
      wecom.SendMessage env w us ds msg =
        { result := .error res.ErrMsg, state := (wecom.getAccessToken env w).state
          calls := (wecom.getAccessToken env w).calls
            ++ [wecom.sendRequest tok us ds msg payload] }) ∧
    (∀ (env : wecom.World) (w : wecom.WeComClient) (tok : String) (res : wecom.DeptRes),
      (wecom.getAccessToken env w).result = .ok tok →
      env.departmentList (wecom.departmentListRequest tok) = .ok res → res.ErrCode ≠ 0 →
      wecom.GetDepartments env w =
        { result := .error res.ErrMsg, state := (wecom.getAccessToken env w).state
          calls := (wecom.getAccessToken env w).calls ++ [wecom.departmentListRequest tok] }) ∧
    (∀ (env : wecom.World) (w : wecom.WeComClient) (tok : String) (res : wecom.UserRes),
      (wecom.getAccessToken env w).result = .ok tok →
      env.userList (wecom.userListRequest tok) = .ok res → res.ErrCode ≠ 0 →
      wecom.GetUsers env w =
        { result := .error res.ErrMsg, state := (wecom.getAccessToken env w).state
          calls := (wecom.getAccessToken env w).calls ++ [wecom.userListRequest tok] }) ∧
    (∀ (env : dingtalk.World) (d : dingtalk.DingTalkClient) (res : dingtalk.TokenRes),
      (d.token = "" ∨ d.tokenExp ≤ env.nowCheck) →
      env.gettoken (dingtalk.tokenRequest d) = .ok res → res.ErrCode ≠ 0 →
      (∀ us ds msg, dingtalk.SendMessage env d us ds msg =
        { result := .error res.ErrMsg, state := d, calls := [dingtalk.tokenRequest d] }) ∧
      dingtalk.GetDepartments env d =
        { result := .error res.ErrMsg, state := d, calls := [dingtalk.tokenRequest d] } ∧
      dingtalk.GetUsers env d =
        { result := .error res.ErrMsg, state := d, calls := [dingtalk.tokenRequest d] }) ∧
    (∀ (env : dingtalk.World) (d : dingtalk.DingTalkClient) (us ds : List String)
        (msg : im.Message) (tok : String) (payload : List (String × Value))
        (res : dingtalk.SendRes),
      (dingtalk.getAccessToken env d).result = .ok tok → us ≠ [] →
      dingtalk.convertMessage msg = .ok payload →
      env.send (dingtalk.sendRequest tok us payload) = .ok res → res.ErrCode ≠ 0 →
      dingtalk.SendMessage env d us ds msg =
        { result := .error res.ErrMsg, state := (dingtalk.getAccessToken env d).state
          calls := (dingtalk.getAccessToken env d).calls
            ++ [dingtalk.sendRequest tok us payload] }) ∧
    (∀ (env : dingtalk.World) (d : dingtalk.DingTalkClient) (tok : String)
        (res : dingtalk.DeptRes),
      (dingtalk.getAccessToken env d).result = .ok tok →
      env.departmentList (dingtalk.departmentListRequest tok) = .ok res → res.ErrCode ≠ 0 →
      dingtalk.GetDepartments env d =
        { result := .error res.ErrMsg, state := (dingtalk.getAccessToken env d).state
          calls := (dingtalk.getAccessToken env d).calls
            ++ [dingtalk.departmentListRequest tok] }) ∧
    (∀ (env : dingtalk.World) (d : dingtalk.DingTalkClient) (tok : String)
        (res : dingtalk.UserRes),
      (dingtalk.getAccessToken env d).result = .ok tok →
      env.userList (dingtalk.userListRequest tok) = .ok res → res.ErrCode ≠ 0 →
      dingtalk.GetUsers env d =
        { result := .error res.ErrMsg, state := (dingtalk.getAccessToken env d).state
          calls := (dingtalk.getAccessToken env d).calls ++ [dingtalk.userListRequest tok] }) ∧
    (∀ (env : feishu.World) (f : feishu.FeishuClient) (res : feishu.TokenRes),
      (f.token = "" ∨ f.tokenExp ≤ env.nowCheck) →
      env.tenantAccessToken (feishu.tokenRequest f) = .ok res → res.Code ≠ 0 →
      (∀ us ds msg, feishu.SendMessage env f us ds msg =
        { result := .error res.Msg, state := f, calls := [feishu.tokenRequest f] }) ∧
      feishu.GetDepartments env f =
        { result := .error res.Msg, state := f, calls := [feishu.tokenRequest f] } ∧
      feishu.GetUsers env f =
        { result := .error res.Msg, state := f, calls := [feishu.tokenRequest f] }) ∧
    (∀ (env : feishu.World) (f : feishu.FeishuClient) (u : String) (us ds : List String)
        (msg : im.Message) (tok : String) (content : List (String × Value))
        (res : feishu.SendRes),
      (feishu.getAccessToken env f).result = .ok tok →
      feishu.convertMessage msg = .ok content →
      env.send (feishu.sendRequest tok u msg content) = .ok res → res.Code ≠ 0 →
      feishu.SendMessage env f (u :: us) ds msg =
        { result := .error res.Msg, state := (feishu.getAccessToken env f).state
          calls := (feishu.getAccessToken env f).calls
            ++ [feishu.sendRequest tok u msg content] }) ∧
    (∀ (env : feishu.World) (f : feishu.FeishuClient) (tok : String) (res : feishu.DeptRes),
      (feishu.getAccessToken env f).result = .ok tok →
      env.departments (feishu.departmentsRequest tok) = .ok res → res.Code ≠ 0 →
      feishu.GetDepartments env f =
        { result := .error res.Msg, state := (feishu.getAccessToken env f).state
          calls := (feishu.getAccessToken env f).calls ++ [feishu.departmentsRequest tok] }) ∧
    (∀ (env : feishu.World) (f : feishu.FeishuClient) (tok : String) (res : feishu.UserRes),
      (feishu.getAccessToken env f).result = .ok tok →
      env.users (feishu.usersRequest tok) = .ok res → res.Code ≠ 0 →
      feishu.GetUsers env f =
        { result := .error res.Msg, state := (feishu.getAccessToken env f).state
          calls := (feishu.getAccessToken env f).calls ++ [feishu.usersRequest tok] }) :=
  ⟨wecom_ops_auth_refused, wecom_send_refused, wecom_departments_refused, wecom_users_refused,
   dingtalk_ops_auth_refused, dingtalk_send_refused, dingtalk_departments_refused,
   dingtalk_users_refused,
   feishu_ops_auth_refused, feishu_send_refused, feishu_departments_refused,
   feishu_users_refused⟩

/-- A fresh WeCom client whose auth endpoint answers code 40013: `GetUsers`
returns "auth refused" after the auth request alone. A Feishu client with a
cached token whose department endpoint answers code 99: `GetDepartments` returns
"upstream refused" after the department request alone. -/
theorem upstream_failure_propagation_witness :
    wecom.GetUsers (wecom.sampleWorld 40013 7200 0) (wecom.NewWeComClient "corp" "secret") =
      { result := .error "auth refused", state := wecom.NewWeComClient "corp" "secret"
        calls := [wecom.tokenRequest (wecom.NewWeComClient "corp" "secret")] } ∧
    feishu.GetDepartments (feishu.sampleWorld 0 7200 99) feishu.cachedClient =
      { result := .error "upstream refused", state := feishu.cachedClient
        calls := [feishu.departmentsRequest "T0"] } :=
  ⟨(upstream_failure_propagation.1 (wecom.sampleWorld 40013 7200 0)
      (wecom.NewWeComClient "corp" "secret")
      { ErrCode := 40013, ErrMsg := "auth refused", AccessToken := "T1", ExpiresIn := 7200 }
      (Or.inl rfl) rfl (by decide)).2.2,
   upstream_failure_propagation.2.2.2.2.2.2.2.2.2.2.1 (feishu.sampleWorld 0 7200 99)
      feishu.cachedClient "T0"
      { Code := 99, Msg := "upstream refused"
        Items := [⟨"12", "root"⟩, ⟨"od-4e6a", "dev"⟩, ⟨"9223372036854775808", "ops"⟩] }
      rfl rfl (by decide)⟩

/-! ### Recipients -/

theorem dingtalk_calls_auth_only (env : dingtalk.World) (d : dingtalk.DingTalkClient) :
    ∀ r ∈ (dingtalk.getAccessToken env d).calls, r = dingtalk.tokenRequest d := by
  intro r hr
  unfold dingtalk.getAccessToken at hr
  simp only [http.Get] at hr
  split at hr
  · simp at hr
  · split at hr
    · simpa [dingtalk.tokenRequest] using hr
    · split at hr <;> simpa [dingtalk.tokenRequest] using hr

theorem feishu_calls_auth_only (env : feishu.World) (f : feishu.FeishuClient) :
    ∀ r ∈ (feishu.getAccessToken env f).calls, r = feishu.tokenRequest f := by
  intro r hr
  unfold feishu.getAccessToken at hr
  simp only [http.Post] at hr
  split at hr
  · simp at hr
  · split at hr
    · simpa [feishu.tokenRequest] using hr
    · split at hr <;> simpa [feishu.tokenRequest] using hr

theorem dingtalk_send_no_recipient (env : dingtalk.World) (d : dingtalk.DingTalkClient)
    (ds : List String) (msg : im.Message) :
    (∃ e, (dingtalk.SendMessage env d [] ds msg).result = .error e) ∧
    (dingtalk.SendMessage env d [] ds msg).calls = (dingtalk.getAccessToken env d).calls := by
  cases h : (dingtalk.getAccessToken env d).result with
  | error e => refine ⟨⟨e, ?_⟩, ?_⟩ <;> simp only [dingtalk.SendMessage, h]
  | ok tok =>
    refine ⟨⟨"toUserIDs cannot be empty", ?_⟩, ?_⟩ <;>
      simp only [dingtalk.SendMessage, h, List.length_nil, if_true]

theorem feishu_send_no_recipient (env : feishu.World) (f : feishu.FeishuClient)
    (ds : List String) (msg : im.Message) :
    (∃ e, (feishu.SendMessage env f [] ds msg).result = .error e) ∧
    (feishu.SendMessage env f [] ds msg).calls = (feishu.getAccessToken env f).calls := by
  cases h : (feishu.getAccessToken env f).result with
  | error e => refine ⟨⟨e, ?_⟩, ?_⟩ <;> simp only [feishu.SendMessage, h]
  | ok tok =>
    refine ⟨⟨"toUserIDs cannot be empty", ?_⟩, ?_⟩ <;>
      simp only [feishu.SendMessage, h, List.length_nil, if_true]

theorem wecom_send_calls (env : wecom.World) (w : wecom.WeComClient) (us ds : List String)
    (msg : im.Message) (tok : String) (payload : List (String × Value))
    (htok : (wecom.getAccessToken env w).result = .ok tok)
    (hconv : wecom.convertMessage msg = .ok payload)
    (hmade : (env.send (wecom.sendRequest tok us ds msg payload)).made = true) :
    (wecom.SendMessage env w us ds msg).calls =
      (wecom.getAccessToken env w).calls ++ [wecom.sendRequest tok us ds msg payload] := by
  have hreq : wecom.sendRequest tok us ds msg payload =
      { method := "POST"
        url := "https://qyapi.weixin.qq.com/cgi-bin/message/send?access_token=" ++ tok
        body := some (.obj (wecom.sendBody us ds msg payload))
        headers := [("Content-Type", "application/json;charset=utf-8")] } := rfl
  rw [hreq] at hmade ⊢
  simp only [wecom.SendMessage, htok, hconv, utils.HttpPostJSON, List.foldl_nil]
  cases h : env.send
      { method := "POST"
        url := "https://qyapi.weixin.qq.com/cgi-bin/message/send?access_token=" ++ tok
        body := some (.obj (wecom.sendBody us ds msg payload))
        headers := [("Content-Type", "application/json;charset=utf-8")] } with
  | refused e =>
    rw [h] at hmade
    exact absurd hmade (by simp [utils.PostReply.made])
  | error e => rfl
  | ok res =>
    simp only
    split <;> rfl

theorem wecom_send_unbuilt (env : wecom.World) (w : wecom.WeComClient) (us ds : List String)
    (msg : im.Message) (tok : String) (payload : List (String × Value)) (e : String)
    (htok : (wecom.getAccessToken env w).result = .ok tok)
    (hconv : wecom.convertMessage msg = .ok payload)
    (href : env.send (wecom.sendRequest tok us ds msg payload) = .refused e) :
    wecom.SendMessage env w us ds msg =
      { result := .error e, state := (wecom.getAccessToken env w).state
        calls := (wecom.getAccessToken env w).calls } := by
  have hrep2 : env.send
      { method := "POST"
        url := "https://qyapi.weixin.qq.com/cgi-bin/message/send?access_token=" ++ tok
        body := some (.obj (wecom.sendBody us ds msg payload))
        headers := [("Content-Type", "application/json;charset=utf-8")] } = .refused e := href
  simp only [wecom.SendMessage, htok, hconv, utils.HttpPostJSON, List.foldl_nil, hrep2,
    List.append_nil]

/-- A WeCom token with a line feed in it: `http.NewRequest` refuses the URL,
`SendMessage` returns its error and no request is made. -/
theorem wecom_send_with_broken_token :
    (∃ e, (wecom.SendMessage (wecom.sampleWorld 0 7200 0) wecom.brokenTokenClient ["u1"] []
        ⟨im.TextMsg, .str "hi"⟩).result = .error e) ∧
    (wecom.SendMessage (wecom.sampleWorld 0 7200 0) wecom.brokenTokenClient ["u1"] []
        ⟨im.TextMsg, .str "hi"⟩).calls = [] ∧
    (wecom.SendMessage (wecom.sampleWorld 0 7200 0) wecom.brokenTokenClient ["u1"] []
        ⟨im.TextMsg, .str "hi"⟩).state = wecom.brokenTokenClient :=
  ⟨⟨_, rfl⟩, rfl, rfl⟩

/-! ### Feishu recipients -/

/-- C9. Feishu recipient noninterference. Two `SendMessage` calls in the same
world, on the same adapter state and with the same message, whose `toUserIDs`
are non-empty and agree on their first element, have the same outcome: same
result, same adapter state, same requests, whatever the other user IDs and the
`toDeptIDs`. When the send request is issued, its body has `user_id` equal to
the first user ID, `msg_type` equal to the message type and `content` equal to
the encoded message. -/
theorem feishu_recipient_noninterference (env : feishu.World) (f : feishu.FeishuClient)
    (us1 us2 ds1 ds2 : List String) (msg : im.Message) (u : String)
    (h1 : us1.head? = some u) (h2 : us2.head? = some u) :
    feishu.SendMessage env f us1 ds1 msg = feishu.SendMessage env f us2 ds2 msg ∧
    (∀ (tok : String) (content : List (String × Value)),
      (feishu.getAccessToken env f).result = .ok tok →
      feishu.convertMessage msg = .ok content →
      (feishu.SendMessage env f us1 ds1 msg).calls =
        (feishu.getAccessToken env f).calls ++ [feishu.sendRequest tok u msg content] ∧
      ∃ b, (feishu.sendRequest tok u msg content).body = some (.obj b) ∧
        mapGet b "user_id" = some (.str u) ∧
        mapGet b "msg_type" = some (.str msg.Type_) ∧
        mapGet b "content" = some (.obj content) ∧
        mapKeys b = ["user_id", "msg_type", "content"]) := by
  cases us1 with
  | nil => simp at h1
  | cons a as =>
    cases us2 with
    | nil => simp at h2
    | cons b bs =>
      simp only [List.head?_cons, Option.some.injEq] at h1 h2
      subst h1
      subst h2
      refine ⟨rfl, fun tok content htok hconv => ⟨?_, ?_⟩⟩
      · simp only [feishu.SendMessage, htok, hconv, http.Do]
        split
        · rfl
        · split <;> rfl
      · refine ⟨_, rfl, ?_⟩
        simp [mapGet, mapSet, mapKeys]

/-- Recipients `["u1", "u2"]` with departments `["7"]` and recipients `["u1"]`
alone give the same outcome, and the body names `u1`. -/
theorem feishu_recipient_noninterference_witness :
    feishu.SendMessage (feishu.sampleWorld 0 7200 0) feishu.cachedClient ["u1", "u2"] ["7"]
        ⟨im.TextMsg, .str "hi"⟩ =
      feishu.SendMessage (feishu.sampleWorld 0 7200 0) feishu.cachedClient ["u1"] []
        ⟨im.TextMsg, .str "hi"⟩ :=
  (feishu_recipient_noninterference (feishu.sampleWorld 0 7200 0) feishu.cachedClient
    ["u1", "u2"] ["u1"] ["7"] [] ⟨im.TextMsg, .str "hi"⟩ "u1" rfl rfl).1

/-! ### WeCom text encoding -/

/-- C10. Encoding fidelity. For every string `s`, the WeCom encoder maps the text
message with content `s` to the payload whose `text.content` is `s`; the body
`SendMessage` builds from it has `msgtype` equal to "text" and `text.content`
equal to `s`; and whenever the token is in hand and the send request is made,
that body is the body of the send request `SendMessage` issues. -/
theorem wecom_text_encoding (s : String) :
    wecom.convertMessage ⟨im.TextMsg, .str s⟩ = .ok [("text", .strMap [("content", s)])] ∧
    mapGet [("content", s)] "content" = some s ∧
    (∀ us ds : List String,
      mapGet (wecom.sendBody us ds ⟨im.TextMsg, .str s⟩ [("text", .strMap [("content", s)])])
        "msgtype" = some (.str "text") ∧
      mapGet (wecom.sendBody us ds ⟨im.TextMsg, .str s⟩ [("text", .strMap [("content", s)])])
        "text" = some (.strMap [("content", s)])) ∧
    (∀ (env : wecom.World) (w : wecom.WeComClient) (us ds : List String) (tok : String),
      (wecom.getAccessToken env w).result = .ok tok →
      (env.send (wecom.sendRequest tok us ds ⟨im.TextMsg, .str s⟩
        [("text", .strMap [("content", s)])])).made = true →
      (wecom.SendMessage env w us ds ⟨im.TextMsg, .str s⟩).calls =
        (wecom.getAccessToken env w).calls ++
          [wecom.sendRequest tok us ds ⟨im.TextMsg, .str s⟩
            [("text", .strMap [("content", s)])]]) := by
  have hconv : wecom.convertMessage ⟨im.TextMsg, .str s⟩
      = .ok [("text", .strMap [("content", s)])] := by
    simp [wecom.convertMessage]
  refine ⟨hconv, ?_, fun us ds => ?_, fun env w us ds tok htok hmade => ?_⟩
  · simp [mapGet]
  · simp [wecom.sendBody, mapGet, mapSet, im.TextMsg]
  · exact wecom_send_calls env w us ds _ tok _ htok hconv hmade

/-- The message `text "hello"`: payload `text.content == "hello"`, and the send
request of a client with a cached token carries `msgtype == "text"`. -/
theorem wecom_text_encoding_witness :
    (wecom.SendMessage (wecom.sampleWorld 0 7200 0) wecom.cachedClient ["u1"] []
        ⟨im.TextMsg, .str "hello"⟩).calls =
      [{ method := "POST"
         url := "https://qyapi.weixin.qq.com/cgi-bin/message/send?access_token=T0"
         body := some (.obj [("touser", .str "u1"), ("toparty", .str ""),
           ("msgtype", .str "text"), ("text", .strMap [("content", "hello")])])
         headers := [("Content-Type", "application/json;charset=utf-8")] }] :=
  (wecom_text_encoding "hello").2.2.2 (wecom.sampleWorld 0 7200 0) wecom.cachedClient ["u1"] []
    "T0" rfl rfl

/-! ### Decimal conversion -/

theorem valueOf_cons (b : Nat) (bs : List Nat) (n : Nat) :
    strconv.valueOf (b :: bs) n = strconv.valueOf bs (n * 10 + (b - 48)) := rfl

theorem valueOf_append (xs ys : List Nat) (n : Nat) :
    strconv.valueOf (xs ++ ys) n = strconv.valueOf ys (strconv.valueOf xs n) := by
  simp [strconv.valueOf, List.foldl_append]

theorem valueOf_ge (bs : List Nat) : ∀ n, n ≤ strconv.valueOf bs n := by
  induction bs with
  | nil => intro n; exact le_refl n
  | cons b bs ih =>
    intro n
    rw [valueOf_cons]
    have := ih (n * 10 + (b - 48))
    omega

theorem valueOf_mono (bs : List Nat) : ∀ m n, m ≤ n → strconv.valueOf bs m ≤ strconv.valueOf bs n := by
  induction bs with
  | nil => intro m n h; exact h
  | cons b bs ih =>
    intro m n h
    rw [valueOf_cons, valueOf_cons]
    exact ih _ _ (by omega)

theorem valueOf_lt (bs : List Nat) (hd : ∀ b ∈ bs, 48 ≤ b ∧ b ≤ 57) :
    ∀ n, strconv.valueOf bs n < (n + 1) * 10 ^ bs.length := by
  induction bs with
  | nil => intro n; simp [strconv.valueOf]
  | cons b bs ih =>
    intro n
    rw [valueOf_cons]
    have hb := hd b (List.mem_cons_self _ _)
    have h1 := ih (fun x hx => hd x (List.mem_cons_of_mem _ hx)) (n * 10 + (b - 48))
    have h2 : (n * 10 + (b - 48) + 1) * 10 ^ bs.length ≤ ((n + 1) * 10) * 10 ^ bs.length :=
      Nat.mul_le_mul_right _ (by omega)
    rw [List.length_cons, pow_succ]
    calc strconv.valueOf bs (n * 10 + (b - 48))
        < (n * 10 + (b - 48) + 1) * 10 ^ bs.length := h1
      _ ≤ ((n + 1) * 10) * 10 ^ bs.length := h2
      _ = (n + 1) * (10 ^ bs.length * 10) := by ring

theorem cutoff10_eq : strconv.cutoff10 = 1844674407370955162 := by decide

theorem maxVal_eq : strconv.maxVal = 18446744073709551615 := by decide

theorem parseUintLoop_digits (bs : List Nat) (hd : ∀ b ∈ bs, 48 ≤ b ∧ b ≤ 57) :
    ∀ n, strconv.valueOf bs n < 2 ^ 64 →
      strconv.parseUintLoop bs n = (strconv.valueOf bs n, none) := by
  induction bs with
  | nil => intro n _; rfl
  | cons b bs ih =>
    intro n hlt
    have hb := hd b (List.mem_cons_self _ _)
    rw [valueOf_cons] at hlt ⊢
    have hge := valueOf_ge bs (n * 10 + (b - 48))
    have hn : n * 10 + (b - 48) < 2 ^ 64 := lt_of_le_of_lt hge hlt
    have e1 : n * 10 % 2 ^ 64 = n * 10 := Nat.mod_eq_of_lt (by omega)
    have e2 : (n * 10 + (b - 48)) % 2 ^ 64 = n * 10 + (b - 48) := Nat.mod_eq_of_lt hn
    simp only [strconv.parseUintLoop, hb, and_self, if_true, e1, e2, cutoff10_eq, maxVal_eq]
    rw [if_neg (by omega), if_neg (by omega), if_neg (by omega)]
    exact ih (fun x hx => hd x (List.mem_cons_of_mem _ hx)) _ hlt

theorem parseUintLoop_overflow (bs : List Nat) (hd : ∀ b ∈ bs, 48 ≤ b ∧ b ≤ 57) :
    ∀ n, n < 2 ^ 64 → 2 ^ 64 ≤ strconv.valueOf bs n →
      strconv.parseUintLoop bs n = (strconv.maxVal, some .ErrRange) := by
  induction bs with
  | nil =>
    intro n h1 h2
    simp only [strconv.valueOf, List.foldl_nil] at h2
    omega
  | cons b bs ih =>
    intro n h1 h2
    have hb := hd b (List.mem_cons_self _ _)
    rw [valueOf_cons] at h2
    simp only [strconv.parseUintLoop, hb, and_self, if_true, cutoff10_eq]
    rw [if_neg (by omega)]
    by_cases hc : n ≥ 1844674407370955162
    · rw [if_pos hc]
    · rw [if_neg hc]
      have e1 : n * 10 % 2 ^ 64 = n * 10 := Nat.mod_eq_of_lt (by omega)
      simp only [e1, maxVal_eq]
      by_cases ho : n * 10 + (b - 48) < 2 ^ 64
      · have e2 : (n * 10 + (b - 48)) % 2 ^ 64 = n * 10 + (b - 48) := Nat.mod_eq_of_lt ho
        rw [e2, if_neg (by omega)]
        have := ih (fun x hx => hd x (List.mem_cons_of_mem _ hx)) _ ho h2
        rw [this, maxVal_eq]
      · have e2 : (n * 10 + (b - 48)) % 2 ^ 64 = n * 10 + (b - 48) - 2 ^ 64 := by omega
        rw [e2, if_pos (by omega)]

theorem atoiFastLoop_digits (bs : List Nat) (hd : ∀ b ∈ bs, 48 ≤ b ∧ b ≤ 57) :
    ∀ n : Nat, strconv.valueOf bs n < 2 ^ 63 →
      strconv.atoiFastLoop bs (n : Int) = some ((strconv.valueOf bs n : Nat) : Int) := by
  induction bs with
  | nil => intro n _; rfl
  | cons b bs ih =>
    intro n hlt
    have hb := hd b (List.mem_cons_self _ _)
    rw [valueOf_cons] at hlt ⊢
    have hge := valueOf_ge bs (n * 10 + (b - 48))
    have e1 : (b + 256 - 48) % 256 = b - 48 := by omega
    have e2 : wrap64 ((n : Int) * 10 + ((b - 48 : Nat) : Int)) = ((n * 10 + (b - 48) : Nat) : Int) := by
      rw [wrap64_of_isInt64]
      · push_cast; ring
      · unfold isInt64
        constructor <;> omega
    simp only [strconv.atoiFastLoop, e1]
    rw [if_neg (by omega), e2]
    exact ih (fun x hx => hd x (List.mem_cons_of_mem _ hx)) _ hlt

theorem parseUint_digits (bs : List Nat) (hne : bs ≠ []) (hd : ∀ b ∈ bs, 48 ≤ b ∧ b ≤ 57) :
    strconv.ParseUint bs =
      if strconv.valueOf bs 0 < 2 ^ 64 then (strconv.valueOf bs 0, none)
      else (strconv.maxVal, some .ErrRange) := by
  unfold strconv.ParseUint
  rw [if_neg hne]
  by_cases h : strconv.valueOf bs 0 < 2 ^ 64
  · rw [if_pos h]
    exact parseUintLoop_digits bs hd 0 h
  · rw [if_neg h]
    exact parseUintLoop_overflow bs hd 0 (by norm_num) (by omega)


theorem natCast_bound : (((2 ^ 63 - 1 : Nat)) : Int) = 2 ^ 63 - 1 := by norm_num

theorem natCast_cut : (((2 ^ 63 : Nat)) : Int) = 2 ^ 63 := by norm_num

theorem wrap64_neg_wrap64 (v : Nat) (h : v ≤ 2 ^ 63) :
    wrap64 (-wrap64 (v : Int)) = -(v : Int) := by
  rcases Nat.lt_or_ge v (2 ^ 63) with h1 | h1
  · rw [wrap64_of_isInt64 (v : Int) ⟨by omega, by omega⟩,
      wrap64_of_isInt64 (-(v : Int)) ⟨by omega, by omega⟩]
  · have hv : v = 2 ^ 63 := le_antisymm h h1
    subst hv
    decide

theorem parseInt_unsigned (bs : List Nat) (hne : bs ≠ []) (hd : ∀ b ∈ bs, 48 ≤ b ∧ b ≤ 57) :
    strconv.ParseInt bs =
      if strconv.valueOf bs 0 < 2 ^ 63 then (((strconv.valueOf bs 0 : Nat) : Int), none)
      else (2 ^ 63 - 1, some .ErrRange) := by
  cases bs with
  | nil => exact absurd rfl hne
  | cons c cs =>
    have hc := hd c (List.mem_cons_self _ _)
    have h43 : ¬ c = 43 := by omega
    have h45 : ¬ c = 45 := by omega
    have hu := parseUint_digits (c :: cs) hne hd
    simp only [strconv.ParseInt, h43, h45, if_false, decide_False, Bool.not_false, Bool.true_and,
      Bool.false_and, decide_eq_true_eq]
    by_cases h : strconv.valueOf (c :: cs) 0 < 2 ^ 64
    · rw [if_pos h] at hu
      rw [hu]
      simp only [reduceCtorEq, if_false, Bool.false_eq_true, natCast_bound]
      by_cases h2 : strconv.valueOf (c :: cs) 0 < 2 ^ 63
      · rw [if_neg (by omega), if_pos h2, wrap64_of_isInt64]
        unfold isInt64
        constructor <;> omega
      · rw [if_pos (by omega), if_neg h2]
    · rw [if_neg h] at hu
      rw [hu, maxVal_eq]
      simp only [Option.some.injEq, reduceCtorEq, if_false, Bool.false_eq_true, natCast_bound]
      rw [if_pos (by norm_num), if_neg (by omega)]

theorem parseInt_plus (bs : List Nat) (hne : bs ≠ []) (hd : ∀ b ∈ bs, 48 ≤ b ∧ b ≤ 57) :
    strconv.ParseInt (43 :: bs) =
      if strconv.valueOf bs 0 < 2 ^ 63 then (((strconv.valueOf bs 0 : Nat) : Int), none)
      else (2 ^ 63 - 1, some .ErrRange) := by
  have hu := parseUint_digits bs hne hd
  simp only [strconv.ParseInt, if_true, show ¬ (43 = 45) by decide, decide_False, Bool.not_false,
    Bool.true_and, Bool.false_and, decide_eq_true_eq]
  by_cases h : strconv.valueOf bs 0 < 2 ^ 64
  · rw [if_pos h] at hu
    rw [hu]
    simp only [reduceCtorEq, if_false, Bool.false_eq_true, natCast_bound]
    by_cases h2 : strconv.valueOf bs 0 < 2 ^ 63
    · rw [if_neg (by omega), if_pos h2, wrap64_of_isInt64]
      unfold isInt64
      constructor <;> omega
    · rw [if_pos (by omega), if_neg h2]
  · rw [if_neg h] at hu
    rw [hu, maxVal_eq]
    simp only [Option.some.injEq, reduceCtorEq, if_false, Bool.false_eq_true, natCast_bound]
    rw [if_pos (by norm_num), if_neg (by omega)]

theorem parseInt_minus (bs : List Nat) (hne : bs ≠ []) (hd : ∀ b ∈ bs, 48 ≤ b ∧ b ≤ 57) :
    strconv.ParseInt (45 :: bs) =
      if strconv.valueOf bs 0 ≤ 2 ^ 63 then (-((strconv.valueOf bs 0 : Nat) : Int), none)
      else (-(2 ^ 63), some .ErrRange) := by
  have hu := parseUint_digits bs hne hd
  simp only [strconv.ParseInt, show ¬ (45 = 43) by decide, if_false, if_true, decide_True,
    Bool.not_true, Bool.true_and, Bool.false_and, decide_eq_true_eq]
  by_cases h : strconv.valueOf bs 0 < 2 ^ 64
  · rw [if_pos h] at hu
    rw [hu]
    simp only [reduceCtorEq, if_false, Bool.false_eq_true, natCast_cut]
    by_cases h2 : strconv.valueOf bs 0 ≤ 2 ^ 63
    · rw [if_neg (by omega), if_pos h2]
      rw [wrap64_neg_wrap64 _ h2]
    · rw [if_pos (by omega), if_neg h2]
  · rw [if_neg h] at hu
    rw [hu, maxVal_eq]
    simp only [Option.some.injEq, reduceCtorEq, if_false, Bool.false_eq_true, natCast_cut]
    rw [if_pos (by norm_num), if_neg (by omega)]

theorem valueOf_lt_of_short (bs : List Nat) (hd : ∀ b ∈ bs, 48 ≤ b ∧ b ≤ 57)
    (hlen : bs.length ≤ 18) : strconv.valueOf bs 0 < 10 ^ 18 := by
  have h1 := valueOf_lt bs hd 0
  have h2 : 10 ^ bs.length ≤ 10 ^ 18 := Nat.pow_le_pow_right (by norm_num) hlen
  omega

theorem atoiBytes_unsigned (bs : List Nat) (hne : bs ≠ []) (hd : ∀ b ∈ bs, 48 ≤ b ∧ b ≤ 57) :
    strconv.atoiBytes bs =
      if strconv.valueOf bs 0 < 2 ^ 63 then (((strconv.valueOf bs 0 : Nat) : Int), none)
      else (2 ^ 63 - 1, some .ErrRange) := by
  unfold strconv.atoiBytes
  by_cases hlen : 0 < bs.length ∧ bs.length < 19
  · simp only [hlen, and_self, if_true]
    cases bs with
    | nil => exact absurd rfl hne
    | cons c cs =>
      have hc := hd c (List.mem_cons_self _ _)
      have h43 : ¬ c = 43 := by omega
      have h45 : ¬ c = 45 := by omega
      have hv := valueOf_lt_of_short (c :: cs) hd (by omega)
      have hv2 : strconv.valueOf (c :: cs) 0 < 2 ^ 63 := by omega
      have hf := atoiFastLoop_digits (c :: cs) hd 0 hv2
      simp only [Nat.cast_zero] at hf
      simp only [h43, h45, decide_False, Bool.or_self, Bool.false_and, Bool.false_eq_true,
        if_false, hf]
      rw [if_pos hv2]
  · simp only [hlen, if_false]
    rw [parseInt_unsigned bs hne hd]
    by_cases h2 : strconv.valueOf bs 0 < 2 ^ 63
    · simp only [if_pos h2]
      rw [wrap64_of_isInt64 _ ⟨by omega, by omega⟩]
    · simp only [if_neg h2]
      rw [wrap64_of_isInt64 _ (by decide)]

theorem atoiBytes_plus (bs : List Nat) (hne : bs ≠ []) (hd : ∀ b ∈ bs, 48 ≤ b ∧ b ≤ 57) :
    strconv.atoiBytes (43 :: bs) =
      if strconv.valueOf bs 0 < 2 ^ 63 then (((strconv.valueOf bs 0 : Nat) : Int), none)
      else (2 ^ 63 - 1, some .ErrRange) := by
  unfold strconv.atoiBytes
  have hpos : 0 < bs.length := List.length_pos.mpr hne
  by_cases hlen : 0 < (43 :: bs).length ∧ (43 :: bs).length < 19
  · simp only [hlen, and_self, if_true]
    have hv := valueOf_lt_of_short bs hd (by simp only [List.length_cons] at hlen; omega)
    have hv2 : strconv.valueOf bs 0 < 2 ^ 63 := by omega
    have hf := atoiFastLoop_digits bs hd 0 hv2
    simp only [Nat.cast_zero] at hf
    have hl : ¬ bs.length < 1 := by omega
    simp only [show ¬ (43 = 45) by decide, decide_False, decide_True, Bool.false_or, if_true,
      hl, Bool.and_false, Bool.false_eq_true, if_false, hf]
    rw [if_pos hv2]
  · simp only [hlen, if_false]
    rw [parseInt_plus bs hne hd]
    by_cases h2 : strconv.valueOf bs 0 < 2 ^ 63
    · simp only [if_pos h2]
      rw [wrap64_of_isInt64 _ ⟨by omega, by omega⟩]
    · simp only [if_neg h2]
      rw [wrap64_of_isInt64 _ (by decide)]

theorem atoiBytes_minus (bs : List Nat) (hne : bs ≠ []) (hd : ∀ b ∈ bs, 48 ≤ b ∧ b ≤ 57) :
    strconv.atoiBytes (45 :: bs) =
      if strconv.valueOf bs 0 ≤ 2 ^ 63 then (-((strconv.valueOf bs 0 : Nat) : Int), none)
      else (-(2 ^ 63), some .ErrRange) := by
  unfold strconv.atoiBytes
  have hpos : 0 < bs.length := List.length_pos.mpr hne
  by_cases hlen : 0 < (45 :: bs).length ∧ (45 :: bs).length < 19
  · simp only [hlen, and_self, if_true]
    have hv := valueOf_lt_of_short bs hd (by simp only [List.length_cons] at hlen; omega)
    have hv2 : strconv.valueOf bs 0 < 2 ^ 63 := by omega
    have hf := atoiFastLoop_digits bs hd 0 hv2
    simp only [Nat.cast_zero] at hf
    have hl : ¬ bs.length < 1 := by omega
    simp only [decide_True, Bool.true_or, if_true, hl, decide_False, Bool.and_false,
      Bool.false_eq_true, if_false, hf]
    rw [if_pos (by omega), wrap64_of_isInt64 _ ⟨by omega, by omega⟩]
  · simp only [hlen, if_false]
    rw [parseInt_minus bs hne hd]
    by_cases h2 : strconv.valueOf bs 0 ≤ 2 ^ 63
    · simp only [if_pos h2]
      rw [wrap64_of_isInt64 _ ⟨by omega, by omega⟩]
    · simp only [if_neg h2]
      rw [wrap64_of_isInt64 _ (by decide)]

theorem utf8_ascii (c : Char) (h : c.toNat < 128) :
    (String.utf8EncodeChar c).map UInt8.toNat = [c.toNat] := by
  have hc : c.toNat = c.val.toNat := rfl
  have hv : c.val ≤ 0x7f := by
    show c.val.toNat ≤ 127
    omega
  simp only [String.utf8EncodeChar, hv, if_true, List.map_cons, List.map_nil]
  congr 1
  show (c.val.toNat.toUInt8).toNat = c.val.toNat
  simp only [Nat.toUInt8, UInt8.ofNat, UInt8.toNat, BitVec.toNat_ofNat]
  omega

theorem char_ofNat_toNat (b : Nat) (h : b < 128) : (Char.ofNat b).toNat = b := by
  have hvalid : b.isValidChar := Or.inl (by omega)
  unfold Char.ofNat
  rw [dif_pos hvalid]
  simp only [Char.ofNatAux, Char.toNat, UInt32.toNat, BitVec.toNat_ofNatLt]

theorem bytes_ascii (cs : List Char) (h : ∀ c ∈ cs, c.toNat < 128) :
    strconv.bytes ⟨cs⟩ = cs.map Char.toNat := by
  unfold strconv.bytes
  induction cs with
  | nil => rfl
  | cons c cs ih =>
    simp only [List.flatMap_cons, List.map_cons]
    rw [utf8_ascii c (h c (List.mem_cons_self _ _))]
    have := ih (fun x hx => h x (List.mem_cons_of_mem _ hx))
    simp only at this
    rw [this]
    rfl

theorem bytes_ofBytes (bs : List Nat) (h : ∀ b ∈ bs, b < 128) :
    strconv.bytes ⟨bs.map Char.ofNat⟩ = bs := by
  rw [bytes_ascii]
  · rw [List.map_map]
    conv_rhs => rw [← List.map_id bs]
    apply List.map_congr_left
    intro b hb
    exact char_ofNat_toNat b (h b hb)
  · intro c hc
    obtain ⟨b, hb, rfl⟩ := List.mem_map.mp hc
    rw [char_ofNat_toNat b (h b hb)]
    exact h b hb

theorem fmtLoop_spec : ∀ (f u : Nat) (buf : List Nat), u < 10 ^ (f + 1) →
    ∃ L, fmt.fmtLoop (f + 1) u buf = L ++ buf ∧ L ≠ [] ∧ (∀ b ∈ L, 48 ≤ b ∧ b ≤ 57) ∧
      strconv.valueOf L 0 = u := by
  intro f
  induction f with
  | zero =>
    intro u buf hu
    have hu10 : ¬ u ≥ 10 := by omega
    refine ⟨[48 + u], ?_, by simp, ?_, ?_⟩
    · simp only [fmt.fmtLoop, if_neg hu10, List.singleton_append]
    · intro b hb
      simp only [List.mem_singleton] at hb
      omega
    · simp [strconv.valueOf]
  | succ f ih =>
    intro u buf hu
    by_cases hu10 : u ≥ 10
    · have hdiv : u / 10 < 10 ^ (f + 1) := by
        rw [pow_succ] at hu
        omega
      obtain ⟨L, hL, hne, hd, hv⟩ := ih (u / 10) ((48 + u - u / 10 * 10) :: buf) hdiv
      refine ⟨L ++ [48 + u - u / 10 * 10], ?_, by simp, ?_, ?_⟩
      · rw [fmt.fmtLoop, if_pos hu10]
        simp only [hL, List.append_assoc, List.singleton_append]
      · intro b hb
        rcases List.mem_append.mp hb with hb | hb
        · exact hd b hb
        · simp only [List.mem_singleton] at hb
          omega
      · rw [valueOf_append, hv]
        simp only [strconv.valueOf, List.foldl_cons, List.foldl_nil]
        omega
    · refine ⟨[48 + u], ?_, by simp, ?_, ?_⟩
      · simp only [fmt.fmtLoop, if_neg hu10, List.singleton_append]
      · intro b hb
        simp only [List.mem_singleton] at hb
        omega
      · simp [strconv.valueOf]

theorem fmtIntegerBytes_spec (d : Int) (h : isInt64 d) :
    ∃ L, L ≠ [] ∧ (∀ b ∈ L, 48 ≤ b ∧ b ≤ 57) ∧ strconv.valueOf L 0 = d.natAbs ∧
      fmt.fmtIntegerBytes d = if d < 0 then 45 :: L else L := by
  unfold isInt64 at h
  by_cases hneg : d < 0
  · have hu : (d % 2 ^ 64).toNat = 2 ^ 64 - d.natAbs := by omega
    have hge : (2 : Nat) ^ 63 ≤ 2 ^ 64 - d.natAbs := by omega
    have hu2 : (2 ^ 64 - (2 ^ 64 - d.natAbs)) % 2 ^ 64 = d.natAbs := by omega
    obtain ⟨L, hL, hne, hd, hv⟩ := fmtLoop_spec 19 d.natAbs [] (by norm_num; omega)
    refine ⟨L, hne, hd, hv, ?_⟩
    simp only [fmt.fmtIntegerBytes, hu, hge, decide_True, if_true, hu2, hL, List.append_nil,
      hneg]
  · have hu : (d % 2 ^ 64).toNat = d.natAbs := by omega
    have hge : ¬ (2 : Nat) ^ 63 ≤ d.natAbs := by omega
    obtain ⟨L, hL, hne, hd, hv⟩ := fmtLoop_spec 19 d.natAbs [] (by norm_num; omega)
    refine ⟨L, hne, hd, hv, ?_⟩
    simp only [fmt.fmtIntegerBytes, hu, hge, decide_False, Bool.false_eq_true, if_false, hL,
      List.append_nil, hneg]

theorem fmtIntegerBytes_ascii (d : Int) (h : isInt64 d) :
    ∀ b ∈ fmt.fmtIntegerBytes d, b < 128 := by
  obtain ⟨L, _, hd, _, hL⟩ := fmtIntegerBytes_spec d h
  intro b hb
  rw [hL] at hb
  split at hb
  · rcases List.mem_cons.mp hb with hb | hb
    · omega
    · have := hd b hb
      omega
  · have := hd b hb
    omega

theorem atoi_sprintf (d : Int) (h : isInt64 d) : strconv.Atoi (fmt.SprintfD d) = (d, none) := by
  unfold strconv.Atoi fmt.SprintfD
  rw [bytes_ofBytes _ (fmtIntegerBytes_ascii d h)]
  obtain ⟨L, hne, hd, hv, hL⟩ := fmtIntegerBytes_spec d h
  rw [hL]
  unfold isInt64 at h
  by_cases hneg : d < 0
  · rw [if_pos hneg, atoiBytes_minus L hne hd, hv, if_pos (by omega)]
    congr 1
    omega
  · rw [if_neg hneg, atoiBytes_unsigned L hne hd, hv, if_pos (by omega)]
    congr 1
    omega

theorem isDigit_toNat (c : Char) (h : c.isDigit = true) : 48 ≤ c.toNat ∧ c.toNat ≤ 57 := by
  simp only [Char.isDigit, Bool.and_eq_true, decide_eq_true_eq] at h
  have hc : c.toNat = c.val.toNat := rfl
  have h1 : (48 : UInt32).toNat ≤ c.val.toNat := h.1
  have h2 : c.val.toNat ≤ (57 : UInt32).toNat := h.2
  have e1 : (48 : UInt32).toNat = 48 := rfl
  have e2 : (57 : UInt32).toNat = 57 := rfl
  omega

theorem digitsValue_spec (cs : List Char) (v : Nat) (h : im.digitsValue cs = some v) :
    cs ≠ [] ∧ (∀ b ∈ cs.map Char.toNat, 48 ≤ b ∧ b ≤ 57) ∧
      strconv.valueOf (cs.map Char.toNat) 0 = v := by
  unfold im.digitsValue at h
  split at h
  · rename_i hc
    simp only [Option.some.injEq] at h
    refine ⟨hc.1, ?_, ?_⟩
    · intro b hb
      obtain ⟨c, hcm, rfl⟩ := List.mem_map.mp hb
      exact isDigit_toNat c (List.all_eq_true.mp hc.2 c hcm)
    · rw [← h]
      simp only [strconv.valueOf, List.foldl_map]
  · exact absurd h (by simp)

theorem digits_ascii (bs : List Nat) (hd : ∀ b ∈ bs, 48 ≤ b ∧ b ≤ 57) : ∀ b ∈ bs, b < 128 := by
  intro b hb
  have := hd b hb
  omega

theorem atoi_decimal (s : String) (v : Int) (h : im.decimalValue s = some v) :
    strconv.Atoi s =
      if isInt64 v then (v, none)
      else if v < 0 then (-(2 ^ 63), some .ErrRange) else (2 ^ 63 - 1, some .ErrRange) := by
  unfold im.decimalValue at h
  unfold strconv.Atoi
  have hbytes : strconv.bytes s = strconv.bytes ⟨s.data⟩ := rfl
  cases hs : s.data with
  | nil => rw [hs] at h; exact absurd h (by simp)
  | cons c cs =>
    rw [hs] at h
    simp only [Int.ofNat_eq_coe] at h
    rw [hbytes, hs]
    by_cases hm : c = '-'
    · rw [if_pos hm] at h
      obtain ⟨n, hn, rfl⟩ := Option.map_eq_some'.mp h
      obtain ⟨hne, hd, hv⟩ := digitsValue_spec cs n hn
      have hasc : ∀ x ∈ c :: cs, x.toNat < 128 := by
        intro x hx
        rcases List.mem_cons.mp hx with hx | hx
        · rw [hx, hm]; decide
        · have := hd x.toNat (List.mem_map_of_mem _ hx)
          omega
      rw [bytes_ascii _ hasc, List.map_cons, hm, show ('-' : Char).toNat = 45 from rfl,
        atoiBytes_minus _ (by simpa using hne) hd, hv]
      unfold isInt64
      by_cases h2 : n ≤ 2 ^ 63
      · rw [if_pos h2, if_pos ⟨by omega, by omega⟩]
      · rw [if_neg h2, if_neg (by omega), if_pos (by omega)]
    · rw [if_neg hm] at h
      by_cases hp : c = '+'
      · rw [if_pos hp] at h
        obtain ⟨n, hn, rfl⟩ := Option.map_eq_some'.mp h
        obtain ⟨hne, hd, hv⟩ := digitsValue_spec cs n hn
        have hasc : ∀ x ∈ c :: cs, x.toNat < 128 := by
          intro x hx
          rcases List.mem_cons.mp hx with hx | hx
          · rw [hx, hp]; decide
          · have := hd x.toNat (List.mem_map_of_mem _ hx)
            omega
        rw [bytes_ascii _ hasc, List.map_cons, hp, show ('+' : Char).toNat = 43 from rfl,
          atoiBytes_plus _ (by simpa using hne) hd, hv]
        unfold isInt64
        by_cases h2 : n < 2 ^ 63
        · rw [if_pos h2, if_pos ⟨by omega, by omega⟩]
        · rw [if_neg h2, if_neg (by omega), if_neg (by omega)]
      · rw [if_neg hp] at h
        obtain ⟨n, hn, rfl⟩ := Option.map_eq_some'.mp h
        obtain ⟨hne, hd, hv⟩ := digitsValue_spec (c :: cs) n hn
        rw [bytes_ascii _ (fun x hx => digits_ascii _ hd x.toNat (List.mem_map_of_mem _ hx)),
          atoiBytes_unsigned _ (by simp) hd, hv]
        unfold isInt64
        by_cases h2 : n < 2 ^ 63
        · rw [if_pos h2, if_pos ⟨by omega, by omega⟩]
        · rw [if_neg h2, if_neg (by omega), if_neg (by omega)]

theorem parseInt_error_value (s : List Nat) :
    ((strconv.ParseInt s).2 = some .ErrSyntax → (strconv.ParseInt s).1 = 0) ∧
    ((strconv.ParseInt s).2 = some .ErrRange →
      (strconv.ParseInt s).1 = 2 ^ 63 - 1 ∨ (strconv.ParseInt s).1 = -(2 ^ 63)) := by
  unfold strconv.ParseInt
  split
  · simp
  · simp only
    split_ifs <;> simp [natCast_bound]

theorem atoiBytes_fast_shape (s : List Nat) (h : 0 < s.length ∧ s.length < 19) :
    strconv.atoiBytes s = (0, some .ErrSyntax) ∨ (strconv.atoiBytes s).2 = none := by
  unfold strconv.atoiBytes
  rw [if_pos h]
  cases s with
  | nil => left; rfl
  | cons c0 rest =>
    dsimp only
    split <;> split <;> first
      | exact Or.inl rfl
      | (cases strconv.atoiFastLoop _ 0 <;> first | exact Or.inl rfl | exact Or.inr rfl)

theorem atoiBytes_error_value (s : List Nat) :
    ((strconv.atoiBytes s).2 = some .ErrSyntax → (strconv.atoiBytes s).1 = 0) ∧
    ((strconv.atoiBytes s).2 = some .ErrRange →
      (strconv.atoiBytes s).1 = 2 ^ 63 - 1 ∨ (strconv.atoiBytes s).1 = -(2 ^ 63)) := by
  by_cases hlen : 0 < s.length ∧ s.length < 19
  · rcases atoiBytes_fast_shape s hlen with h | h
    · rw [h]
      simp
    · rw [h]
      simp
  · have e : strconv.atoiBytes s = (wrap64 (strconv.ParseInt s).1, (strconv.ParseInt s).2) := by
      unfold strconv.atoiBytes
      rw [if_neg hlen]
    obtain ⟨h1, h2⟩ := parseInt_error_value s
    rw [e]
    refine ⟨fun h => ?_, fun h => ?_⟩
    · show wrap64 (strconv.ParseInt s).1 = 0
      rw [h1 h]
      decide
    · show wrap64 (strconv.ParseInt s).1 = 2 ^ 63 - 1 ∨ wrap64 (strconv.ParseInt s).1 = -(2 ^ 63)
      rcases h2 h with h3 | h3 <;> rw [h3]
      · left; decide
      · right; decide

theorem digitChar_eq (k : Nat) (h : k < 10) : Nat.digitChar k = Char.ofNat (48 + k) := by
  interval_cases k <;> rfl

theorem fmtLoop_toDigitsCore : ∀ (f u : Nat) (buf : List Nat) (g : Nat), u < 10 ^ (f + 1) → u < g →
    (fmt.fmtLoop (f + 1) u buf).map Char.ofNat = Nat.toDigitsCore 10 g u (buf.map Char.ofNat) := by
  intro f
  induction f with
  | zero =>
    intro u buf g hu hg
    have hu10 : ¬ u ≥ 10 := by omega
    obtain ⟨g, rfl⟩ : ∃ k, g = k + 1 := ⟨g - 1, by omega⟩
    have hd : u / 10 = 0 := by omega
    have hm : u % 10 = u := by omega
    simp only [fmt.fmtLoop, if_neg hu10, List.map_cons, Nat.toDigitsCore, hd, if_true, hm,
      digitChar_eq u (by omega)]
  | succ f ih =>
    intro u buf g hu hg
    obtain ⟨g, rfl⟩ : ∃ k, g = k + 1 := ⟨g - 1, by omega⟩
    by_cases hu10 : u ≥ 10
    · have hdiv : u / 10 < 10 ^ (f + 1) := by
        rw [pow_succ] at hu
        omega
      have hd : ¬ u / 10 = 0 := by omega
      have hm : 48 + u - u / 10 * 10 = 48 + u % 10 := by omega
      rw [fmt.fmtLoop, if_pos hu10]
      simp only [Nat.toDigitsCore, hd, if_false]
      rw [ih (u / 10) _ g hdiv (by omega), List.map_cons, hm,
        digitChar_eq (u % 10) (by omega)]
    · have hd : u / 10 = 0 := by omega
      have hm : u % 10 = u := by omega
      simp only [fmt.fmtLoop, if_neg hu10, List.map_cons, Nat.toDigitsCore, hd, if_true, hm,
        digitChar_eq u (by omega)]

theorem sprintf_nat (u : Nat) (h : u < 10 ^ 20) :
    String.mk ((fmt.fmtLoop 20 u []).map Char.ofNat) = toString u := by
  have := fmtLoop_toDigitsCore 19 u [] (u + 1) h (by omega)
  show String.mk ((fmt.fmtLoop 20 u []).map Char.ofNat) = Nat.repr u
  rw [this]
  rfl

theorem sprintf_eq_toString (d : Int) (h : isInt64 d) : fmt.SprintfD d = toString d := by
  unfold isInt64 at h
  unfold fmt.SprintfD
  cases d with
  | ofNat m =>
    have hm : (Int.ofNat m % 2 ^ 64).toNat = m := by
      have : Int.ofNat m = (m : Int) := rfl
      omega
    have hge : ¬ (2 : Nat) ^ 63 ≤ m := by
      have : Int.ofNat m = (m : Int) := rfl
      omega
    simp only [fmt.fmtIntegerBytes, hm, hge, decide_False, Bool.false_eq_true, if_false]
    rw [sprintf_nat m (by norm_num; omega)]
    rfl
  | negSucc m =>
    have hm : (Int.negSucc m % 2 ^ 64).toNat = 2 ^ 64 - (m + 1) := by
      have : Int.negSucc m = -((m : Int) + 1) := rfl
      omega
    have hge : (2 : Nat) ^ 63 ≤ 2 ^ 64 - (m + 1) := by
      have : Int.negSucc m = -((m : Int) + 1) := rfl
      omega
    have hu2 : (2 ^ 64 - (2 ^ 64 - (m + 1))) % 2 ^ 64 = m + 1 := by
      have : Int.negSucc m = -((m : Int) + 1) := rfl
      omega
    simp only [fmt.fmtIntegerBytes, hm, hge, decide_True, if_true, hu2, List.map_cons]
    have hs := sprintf_nat (m + 1) (by
      have : Int.negSucc m = -((m : Int) + 1) := rfl
      norm_num
      omega)
    show String.mk (Char.ofNat 45 :: (fmt.fmtLoop 20 (m + 1) []).map Char.ofNat)
      = "-" ++ toString (m + 1)
    rw [← hs]
    rfl

theorem foldl_append_singleton {α β : Type} (g : α → β) (l : List α) :
    ∀ init : List β, l.foldl (fun acc x => acc ++ [g x]) init = init ++ l.map g := by
  induction l with
  | nil => intro init; simp
  | cons a l ih =>
    intro init
    simp only [List.foldl_cons, List.map_cons]
    rw [ih]
    simp

/-! ### Directory normalization -/

theorem wecom_users_ok (env : wecom.World) (w : wecom.WeComClient) (tok : String)
    (res : wecom.UserRes)
    (htok : (wecom.getAccessToken env w).result = .ok tok)
    (hrep : env.userList (wecom.userListRequest tok) = .ok res) (hcode : res.ErrCode = 0)
    (hint : ∀ u ∈ res.UserList, ∀ d ∈ u.Department, isInt64 d) :
    (wecom.GetUsers env w).result = .ok (res.UserList.map (fun u =>
      { ID := u.UserID, Name := u.Name, Phone := ""
        DeptIDs := u.Department.map (fun d => toString d) })) := by
  have hrep2 : env.userList
      { method := "GET"
        url := "https://qyapi.weixin.qq.com/cgi-bin/user/list?access_token=" ++ tok
          ++ "&department_id=1&fetch_child=1"
        body := none, headers := [] } = .ok res := hrep
  simp only [wecom.GetUsers, htok, utils.HttpGetJSON, hrep2, hcode, ne_eq, not_true_eq_false,
    if_false, foldl_append_singleton, List.nil_append, Except.ok.injEq]
  apply List.map_congr_left
  intro u hu
  congr 1
  apply List.map_congr_left
  intro d hd
  exact sprintf_eq_toString d (hint u hu d hd)

theorem dingtalk_users_ok (env : dingtalk.World) (c : dingtalk.DingTalkClient) (tok : String)
    (res : dingtalk.UserRes)
    (htok : (dingtalk.getAccessToken env c).result = .ok tok)
    (hrep : env.userList (dingtalk.userListRequest tok) = .ok res) (hcode : res.ErrCode = 0)
    (hint : ∀ u ∈ res.Userlist, ∀ d ∈ u.DeptIDList, isInt64 d) :
    (dingtalk.GetUsers env c).result = .ok (res.Userlist.map (fun u =>
      { ID := u.UserID, Name := u.Name, Phone := ""
        DeptIDs := u.DeptIDList.map (fun d => toString d) })) := by
  have hrep2 : env.userList
      { method := "GET"
        url := "https://oapi.dingtalk.com/user/listbypage?access_token=" ++ tok
          ++ "&department_id=1&offset=0&size=100"
        body := none, headers := [] } = .ok res := hrep
  simp only [dingtalk.GetUsers, htok, http.Get, hrep2, hcode, ne_eq, not_true_eq_false,
    if_false, foldl_append_singleton, List.nil_append, Except.ok.injEq]
  apply List.map_congr_left
  intro u hu
  congr 1
  apply List.map_congr_left
  intro d hd
  exact sprintf_eq_toString d (hint u hu d hd)

/-- C6. User normalization. For WeCom and for DingTalk: when the token is in
hand and the user-list endpoint answers code 0, `GetUsers` returns the list
obtained from the reply's `userlist` record by record, in order (so of the same
length): the user's `ID` and `Name` are the record's `userid` and `name`, and
`DeptIDs` is the record's department list with each integer (a Go `int`)
replaced by its decimal string, order preserved. -/
theorem user_normalization :
    (∀ (env : wecom.World) (w : wecom.WeComClient) (tok : String) (res : wecom.UserRes),
      (wecom.getAccessToken env w).result = .ok tok →
      env.userList (wecom.userListRequest tok) = .ok res → res.ErrCode = 0 →
      (∀ u ∈ res.UserList, ∀ d ∈ u.Department, isInt64 d) →
      (wecom.GetUsers env w).result = .ok (res.UserList.map (fun u =>
        { ID := u.UserID, Name := u.Name, Phone := ""
          DeptIDs := u.Department.map (fun d => toString d) }))) ∧
    (∀ (env : dingtalk.World) (c : dingtalk.DingTalkClient) (tok : String)
        (res : dingtalk.UserRes),
      (dingtalk.getAccessToken env c).result = .ok tok →
      env.userList (dingtalk.userListRequest tok) = .ok res → res.ErrCode = 0 →
      (∀ u ∈ res.Userlist, ∀ d ∈ u.DeptIDList, isInt64 d) →
      (dingtalk.GetUsers env c).result = .ok (res.Userlist.map (fun u =>
        { ID := u.UserID, Name := u.Name, Phone := ""
          DeptIDs := u.DeptIDList.map (fun d => toString d) }))) :=
  ⟨wecom_users_ok, dingtalk_users_ok⟩

/-- A WeCom reply with the records `u1` (departments `[1, 2]`) and `u2` (no
department) normalizes to `DeptIDs` `["1", "2"]` and `[]`, in that order. -/
theorem user_normalization_witness :
    (wecom.GetUsers (wecom.sampleWorld 0 7200 0) wecom.cachedClient).result =
      .ok [{ ID := "u1", Name := "Ann", Phone := "", DeptIDs := ["1", "2"] },
           { ID := "u2", Name := "Bob", Phone := "", DeptIDs := [] }] :=
  user_normalization.1 (wecom.sampleWorld 0 7200 0) wecom.cachedClient "T0"
    { ErrCode := 0, ErrMsg := "upstream refused"
      UserList := [⟨"u1", "Ann", [1, 2]⟩, ⟨"u2", "Bob", []⟩] }
    rfl rfl rfl (by decide)

theorem wecom_departments_ok (env : wecom.World) (w : wecom.WeComClient) (tok : String)
    (res : wecom.DeptRes)
    (htok : (wecom.getAccessToken env w).result = .ok tok)
    (hrep : env.departmentList (wecom.departmentListRequest tok) = .ok res)
    (hcode : res.ErrCode = 0) (hint : ∀ d ∈ res.Department, isInt64 d.ID) :
    (wecom.GetDepartments env w).result =
      .ok (res.Department.map (fun d => { ID := d.ID, Name := d.Name })) := by
  have hrep2 : env.departmentList
      { method := "GET"
        url := "https://qyapi.weixin.qq.com/cgi-bin/department/list?access_token=" ++ tok
        body := none, headers := [] } = .ok res := hrep
  simp only [wecom.GetDepartments, htok, utils.HttpGetJSON, hrep2, hcode, ne_eq,
    not_true_eq_false, if_false, foldl_append_singleton, List.nil_append, Except.ok.injEq]
  apply List.map_congr_left
  intro d hd
  rw [atoi_sprintf d.ID (hint d hd)]

theorem dingtalk_departments_ok (env : dingtalk.World) (c : dingtalk.DingTalkClient)
    (tok : String) (res : dingtalk.DeptRes)
    (htok : (dingtalk.getAccessToken env c).result = .ok tok)
    (hrep : env.departmentList (dingtalk.departmentListRequest tok) = .ok res)
    (hcode : res.ErrCode = 0) :
    (dingtalk.GetDepartments env c).result =
      .ok (res.Department.map (fun d => { ID := d.ID, Name := d.Name })) := by
  have hrep2 : env.departmentList
      { method := "GET"
        url := "https://oapi.dingtalk.com/department/list?access_token=" ++ tok
        body := none, headers := [] } = .ok res := hrep
  simp only [dingtalk.GetDepartments, htok, http.Get, hrep2, hcode, ne_eq,
    not_true_eq_false, if_false, foldl_append_singleton, List.nil_append]

theorem feishu_departments_ok (env : feishu.World) (f : feishu.FeishuClient)
    (tok : String) (res : feishu.DeptRes)
    (htok : (feishu.getAccessToken env f).result = .ok tok)
    (hrep : env.departments (feishu.departmentsRequest tok) = .ok res)
    (hcode : res.Code = 0) :
    (feishu.GetDepartments env f).result =
      .ok (res.Items.map (fun d => { ID := (strconv.Atoi d.DepartmentID).1, Name := d.Name })) := by
  have hrep2 : env.departments
      { method := "GET", url := "https://open.feishu.cn/open-apis/contact/v3/departments"
        body := none, headers := [("Authorization", "Bearer " ++ tok)] } = .ok res := hrep
  simp only [feishu.GetDepartments, htok, http.Do, mapSet, hrep2, hcode, ne_eq,
    not_true_eq_false, if_false, foldl_append_singleton, List.nil_append]

theorem atoi_in_range (s : String) (v : Int) (h : im.decimalValue s = some v) (hv : isInt64 v) :
    strconv.Atoi s = (v, none) := by
  rw [atoi_decimal s v h, if_pos hv]

theorem atoi_out_of_range (s : String) (v : Int) (h : im.decimalValue s = some v)
    (hv : ¬ isInt64 v) :
    strconv.Atoi s = (if v < 0 then -(2 ^ 63) else 2 ^ 63 - 1, some .ErrRange) := by
  rw [atoi_decimal s v h, if_neg hv]
  split <;> rfl

/-- C7, as the code has it. Department normalization. When the token is in hand
and the department-list endpoint answers code 0, `GetDepartments` returns one
`Department` per item of the reply, in order, with the item's name. For WeCom
and DingTalk the `ID` is the provider's integer id, for every Go `int`. For
Feishu the `ID` is what `strconv.Atoi` returns for `department_id`, the error
being dropped and none returned: the integer the string denotes when it is an
optionally signed decimal numeral inside the `int64` range; the bound
`2^63 - 1` or `-2^63` when it is such a numeral outside that range, and more
generally whenever `Atoi` reports a range error; and 0 whenever `Atoi` reports
a syntax error. -/
theorem department_normalization :
    (∀ (env : wecom.World) (w : wecom.WeComClient) (tok : String) (res : wecom.DeptRes),
      (wecom.getAccessToken env w).result = .ok tok →
      env.departmentList (wecom.departmentListRequest tok) = .ok res → res.ErrCode = 0 →
      (∀ d ∈ res.Department, isInt64 d.ID) →
      (wecom.GetDepartments env w).result =
        .ok (res.Department.map (fun d => { ID := d.ID, Name := d.Name }))) ∧
    (∀ (env : dingtalk.World) (c : dingtalk.DingTalkClient) (tok : String)
        (res : dingtalk.DeptRes),
      (dingtalk.getAccessToken env c).result = .ok tok →
      env.departmentList (dingtalk.departmentListRequest tok) = .ok res → res.ErrCode = 0 →
      (dingtalk.GetDepartments env c).result =
        .ok (res.Department.map (fun d => { ID := d.ID, Name := d.Name }))) ∧
    (∀ (env : feishu.World) (f : feishu.FeishuClient) (tok : String) (res : feishu.DeptRes),
      (feishu.getAccessToken env f).result = .ok tok →
      env.departments (feishu.departmentsRequest tok) = .ok res → res.Code = 0 →
      (feishu.GetDepartments env f).result =
        .ok (res.Items.map (fun d =>
          { ID := (strconv.Atoi d.DepartmentID).1, Name := d.Name }))) ∧
    (∀ (s : String) (v : Int), im.decimalValue s = some v → isInt64 v →
      strconv.Atoi s = (v, none)) ∧
    (∀ (s : String) (v : Int), im.decimalValue s = some v → ¬ isInt64 v →
      strconv.Atoi s = (if v < 0 then -(2 ^ 63) else 2 ^ 63 - 1, some .ErrRange)) ∧
    (∀ s : String, (strconv.Atoi s).2 = some .ErrSyntax → (strconv.Atoi s).1 = 0) ∧
    (∀ s : String, (strconv.Atoi s).2 = some .ErrRange →
      (strconv.Atoi s).1 = 2 ^ 63 - 1 ∨ (strconv.Atoi s).1 = -(2 ^ 63)) :=
  ⟨wecom_departments_ok, dingtalk_departments_ok, feishu_departments_ok, atoi_in_range,
   atoi_out_of_range, fun s => (atoiBytes_error_value (strconv.bytes s)).1,
   fun s => (atoiBytes_error_value (strconv.bytes s)).2⟩

/-- A WeCom reply with the departments 1 and -7 keeps both ids; the string "-12"
is the numeral of -12 and `Atoi` returns -12 for it. -/
theorem department_normalization_witness :
    (wecom.GetDepartments (wecom.sampleWorld 0 7200 0) wecom.cachedClient).result =
      .ok [{ ID := 1, Name := "root" }, { ID := -7, Name := "dev" }] ∧
    strconv.Atoi "-12" = (-12, none) :=
  ⟨department_normalization.1 (wecom.sampleWorld 0 7200 0) wecom.cachedClient "T0"
      { ErrCode := 0, ErrMsg := "upstream refused"
        Department := [⟨1, "root", 0⟩, ⟨-7, "dev", 1⟩] }
      rfl rfl rfl (by decide),
   department_normalization.2.2.2.1 "-12" (-12) (by decide) (by decide)⟩

/-- C7 as stated fails for Feishu: the `department_id` "9223372036854775808"
denotes the integer 2^63, yet the department gets the `ID` 2^63 - 1, which is
neither the integer parsed from the string nor 0, and no error is returned. The
ids "12" and "od-4e6a" of the same reply give 12 and 0. -/
theorem feishu_department_id_clamped :
    (feishu.GetDepartments (feishu.sampleWorld 0 7200 0) feishu.cachedClient).result =
      .ok [{ ID := 12, Name := "root" }, { ID := 0, Name := "dev" },
           { ID := 9223372036854775807, Name := "ops" }] ∧
    im.decimalValue "9223372036854775808" = some 9223372036854775808 ∧
    (9223372036854775807 : Int) ≠ im.parsedOrZero "9223372036854775808" ∧
    (9223372036854775807 : Int) ≠ 0 := by
  refine ⟨rfl, by decide, by decide, by decide⟩

/-! ### Unsupported message types -/

theorem wecom_convert_unsupported (msg : im.Message) (h : msg.Type_ ∉ im.declaredTypes) :
    wecom.convertMessage msg = .error "unsupported message type" := by
  simp only [im.declaredTypes, List.mem_cons, List.mem_singleton, List.not_mem_nil, or_false,
    not_or] at h
  obtain ⟨h1, h2, h3, h4, h5, h6, h7, h8⟩ := h
  simp [wecom.convertMessage, h1, h2, h3, h4, h5, h6, h7, h8]

/-- C11, as the code has it. Unsupported-type error content. For each adapter,
every message whose type the adapter does not implement (WeCom: a type outside
the eight declared ones; DingTalk and Feishu: a type other than text and image)
makes `convertMessage` return one fixed error message, the same for every such
type and content. The DingTalk message is "unsupported message type for
DingTalk" and the Feishu message "unsupported message type for Feishu": each
names its provider. -/
theorem unsupported_type_error_fixed :
    (∃ e : String, ∀ msg : im.Message, msg.Type_ ∉ im.declaredTypes →
      wecom.convertMessage msg = .error e) ∧
    (∀ msg : im.Message, msg.Type_ ≠ im.TextMsg → msg.Type_ ≠ im.ImageMsg →
      dingtalk.convertMessage msg = .error "unsupported message type for DingTalk") ∧
    im.names "unsupported message type for DingTalk" "DingTalk" = true ∧
    (∀ msg : im.Message, msg.Type_ ≠ im.TextMsg → msg.Type_ ≠ im.ImageMsg →
      feishu.convertMessage msg = .error "unsupported message type for Feishu") ∧
    im.names "unsupported message type for Feishu" "Feishu" = true :=
  ⟨⟨"unsupported message type", wecom_convert_unsupported⟩, dingtalk_convert_unsupported,
   by decide, feishu_convert_unsupported, by decide⟩

/-- A video message and a voice message get the same DingTalk error. -/
theorem unsupported_type_error_fixed_witness :
    dingtalk.convertMessage ⟨im.VideoMsg, .video ⟨"m1", "t", "d"⟩⟩ =
      dingtalk.convertMessage ⟨im.VoiceMsg, .voice ⟨"m1", 3⟩⟩ :=
  (unsupported_type_error_fixed.2.1 ⟨im.VideoMsg, .video ⟨"m1", "t", "d"⟩⟩
      (by decide) (by decide)).trans
    (unsupported_type_error_fixed.2.1 ⟨im.VoiceMsg, .voice ⟨"m1", 3⟩⟩
      (by decide) (by decide)).symm

/-- C11 as stated fails in each adapter. A voice message sent through DingTalk or
Feishu gets an error that does not contain "voice"; a message of the undeclared
type "location" sent through WeCom gets "unsupported message type", which
contains neither "location" nor "WeCom". -/
theorem unsupported_type_error_omits_type :
    im.namesTypeAndProvider (dingtalk.convertMessage ⟨im.VoiceMsg, .voice ⟨"m1", 3⟩⟩)
      im.VoiceMsg "DingTalk" = false ∧
    im.namesTypeAndProvider (feishu.convertMessage ⟨im.VoiceMsg, .voice ⟨"m1", 3⟩⟩)
      im.VoiceMsg "Feishu" = false ∧
    im.namesTypeAndProvider (wecom.convertMessage ⟨"location", .other 0⟩)
      "location" "WeCom" = false ∧
    wecom.convertMessage ⟨"location", .other 0⟩ = .error "unsupported message type" ∧
    im.names "unsupported message type" "location" = false ∧
    im.names "unsupported message type" "WeCom" = false ∧
    im.names "unsupported message type for DingTalk" "voice" = false := by
  refine ⟨by decide, by decide, by decide, rfl, by decide, by decide, by decide⟩

/-! ### WeCom request body -/

theorem joinIDs_eq (ids : List String) : utils.JoinIDs ids = strings.Join ids "|" := by
  cases ids with
  | nil => rfl
  | cons a as => simp [utils.JoinIDs]

theorem wecom_payload_shape (msg : im.Message) (payload : List (String × Value))
    (h : wecom.convertMessage msg = .ok payload) :
    msg.Type_ ∈ im.declaredTypes ∧ ∃ v, payload = [(msg.Type_, v)] := by
  obtain ⟨t, c⟩ := msg
  simp only [wecom.convertMessage] at h
  simp only [im.declaredTypes, List.mem_cons, List.mem_singleton, List.not_mem_nil, or_false]
  split_ifs at h with h1 h2 h3 h4 h5 h6 h7 h8
  all_goals first
    | exact absurd h (by simp)
    | (split at h
       · simp only [Except.ok.injEq] at h
         subst h
         simp_all [im.TextMsg, im.ImageMsg, im.VoiceMsg, im.VideoMsg, im.FileMsg,
           im.TextCardMsg, im.NewsMsg, im.MarkdownMsg]
       · exact absurd h (by simp))

theorem wecom_body_routing (t : String) (v : Value) (us ds : List String) (c : im.Content)
    (ht : t ∈ im.declaredTypes) :
    wecom.sendBody us ds ⟨t, c⟩ [(t, v)] =
      [("touser", .str (utils.JoinIDs us)), ("toparty", .str (utils.JoinIDs ds)),
       ("msgtype", .str t), (t, v)] := by
  simp only [im.declaredTypes, List.mem_cons, List.mem_singleton, List.not_mem_nil, or_false,
    im.TextMsg, im.ImageMsg, im.VoiceMsg, im.VideoMsg, im.FileMsg, im.TextCardMsg, im.NewsMsg,
    im.MarkdownMsg] at ht
  rcases ht with h | h | h | h | h | h | h | h <;> subst h <;>
    simp [wecom.sendBody, mapSet]

/-- C12. WeCom payload key invariant. For every message the WeCom encoder
accepts, the payload has exactly one top-level key, the message type. So the
body `SendMessage` builds by assigning the payload over the routing fields has
the four keys `touser`, `toparty`, `msgtype` and the message type, with `touser`
still the user IDs joined by "|", `toparty` the department IDs joined by "|" and
`msgtype` the message type; and that body is the body of the send request
`SendMessage` issues once the token is in hand and the request is made. -/
theorem wecom_payload_key_invariant (msg : im.Message) (payload : List (String × Value))
    (h : wecom.convertMessage msg = .ok payload) :
    mapKeys payload = [msg.Type_] ∧
    (∀ us ds : List String,
      mapKeys (wecom.sendBody us ds msg payload)
        = ["touser", "toparty", "msgtype", msg.Type_] ∧
      mapGet (wecom.sendBody us ds msg payload) "touser" = some (.str (strings.Join us "|")) ∧
      mapGet (wecom.sendBody us ds msg payload) "toparty" = some (.str (strings.Join ds "|")) ∧
      mapGet (wecom.sendBody us ds msg payload) "msgtype" = some (.str msg.Type_)) ∧
    (∀ (env : wecom.World) (w : wecom.WeComClient) (us ds : List String) (tok : String),
      (wecom.getAccessToken env w).result = .ok tok →
      (env.send (wecom.sendRequest tok us ds msg payload)).made = true →
      (wecom.SendMessage env w us ds msg).calls =
        (wecom.getAccessToken env w).calls ++ [wecom.sendRequest tok us ds msg payload]) := by
  obtain ⟨ht, v, hv⟩ := wecom_payload_shape msg payload h
  obtain ⟨t, c⟩ := msg
  simp only at ht hv
  subst hv
  refine ⟨rfl, fun us ds => ?_, fun env w us ds tok htok hmade => ?_⟩
  · rw [wecom_body_routing t v us ds c ht, joinIDs_eq, joinIDs_eq]
    simp [mapKeys, mapGet]
  · exact wecom_send_calls env w us ds _ tok _ htok h hmade

/-- A news message with one article: the payload has the single key "news", and
the body for users `u1`, `u2` and department `7` keeps `touser = "u1|u2"`,
`toparty = "7"` and `msgtype = "news"`. -/
theorem wecom_payload_key_invariant_witness :
    mapKeys [("news", Value.obj [("articles", .strMapList
      [[("title", "a"), ("description", "b"), ("url", "c"), ("picurl", "d")]])])] = ["news"] ∧
    mapGet (wecom.sendBody ["u1", "u2"] ["7"] ⟨im.NewsMsg, .news ⟨[⟨"a", "b", "c", "d"⟩]⟩⟩
      [("news", Value.obj [("articles", .strMapList
        [[("title", "a"), ("description", "b"), ("url", "c"), ("picurl", "d")]])])])
      "touser" = some (.str "u1|u2") :=
  ⟨(wecom_payload_key_invariant ⟨im.NewsMsg, .news ⟨[⟨"a", "b", "c", "d"⟩]⟩⟩
      [("news", Value.obj [("articles", .strMapList
        [[("title", "a"), ("description", "b"), ("url", "c"), ("picurl", "d")]])])] rfl).1,
   ((wecom_payload_key_invariant ⟨im.NewsMsg, .news ⟨[⟨"a", "b", "c", "d"⟩]⟩⟩
      [("news", Value.obj [("articles", .strMapList
        [[("title", "a"), ("description", "b"), ("url", "c"), ("picurl", "d")]])])] rfl).2.1
      ["u1", "u2"] ["7"]).2.1⟩

/-! ### Token state machine -/

theorem wecom_slow_calls (env : wecom.World) (w : wecom.WeComClient)
    (h : ¬ (w.token ≠ "" ∧ env.nowCheck < w.tokenExp)) :
    (wecom.getAccessToken env w).calls = [wecom.tokenRequest w] := by
  have hs : ¬ (w.token ≠ "" ∧ time.Before env.nowCheck w.tokenExp = true) := by
    simpa only [time.Before, decide_eq_true_eq] using h
  simp only [wecom.getAccessToken, if_neg hs, utils.HttpGetJSON, wecom.tokenRequest]
  split
  · rfl
  · split <;> rfl

theorem wecom_after_refresh (env env2 : wecom.World) (w : wecom.WeComClient)
    (res : wecom.TokenRes)
    (hstale : w.token = "" ∨ w.tokenExp ≤ env.nowCheck)
    (hrep : env.gettoken (wecom.tokenRequest w) = .ok res) (hcode : res.ErrCode = 0)
    (hrange : isInt64 ((res.ExpiresIn - 60) * 1000000000)) :
    ((res.AccessToken ≠ "" ∧ env2.nowCheck < env.nowStore + (res.ExpiresIn - 60) * 1000000000) →
      wecom.getAccessToken env2 (wecom.getAccessToken env w).state =
        { result := .ok res.AccessToken, state := (wecom.getAccessToken env w).state
          calls := [] }) ∧
    (¬ (res.AccessToken ≠ "" ∧
        env2.nowCheck < env.nowStore + (res.ExpiresIn - 60) * 1000000000) →
      (wecom.getAccessToken env2 (wecom.getAccessToken env w).state).calls =
        [wecom.tokenRequest (wecom.getAccessToken env w).state]) ∧
    ((wecom.getAccessToken env2 (wecom.getAccessToken env w).state).calls = [] ↔
      (res.AccessToken ≠ "" ∧
        env2.nowCheck < env.nowStore + (res.ExpiresIn - 60) * 1000000000)) ∧
    ((res.ExpiresIn ≤ 60 ∨ res.AccessToken = "") → env.nowStore ≤ env2.nowCheck →
      (wecom.getAccessToken env2 (wecom.getAccessToken env w).state).calls =
        [wecom.tokenRequest (wecom.getAccessToken env w).state]) := by
  have hst := wecom_refresh env w res hstale hrep hcode hrange
  have htok : (wecom.getAccessToken env w).state.token = res.AccessToken := by rw [hst]
  have hexp : (wecom.getAccessToken env w).state.tokenExp
      = env.nowStore + (res.ExpiresIn - 60) * 1000000000 := by rw [hst]
  have hfast : (res.AccessToken ≠ "" ∧
      env2.nowCheck < env.nowStore + (res.ExpiresIn - 60) * 1000000000) →
      wecom.getAccessToken env2 (wecom.getAccessToken env w).state =
        { result := .ok res.AccessToken, state := (wecom.getAccessToken env w).state
          calls := [] } := by
    intro hc
    have := wecom_cached env2 (wecom.getAccessToken env w).state (by rw [htok]; exact hc.1)
      (by rw [hexp]; exact hc.2)
    rw [this, htok]
  have hslow : ¬ (res.AccessToken ≠ "" ∧
      env2.nowCheck < env.nowStore + (res.ExpiresIn - 60) * 1000000000) →
      (wecom.getAccessToken env2 (wecom.getAccessToken env w).state).calls =
        [wecom.tokenRequest (wecom.getAccessToken env w).state] := by
    intro hc
    exact wecom_slow_calls env2 _ (by rw [htok, hexp]; exact hc)
  refine ⟨hfast, hslow, ⟨fun h => ?_, fun h => ?_⟩, fun h hle => ?_⟩
  · by_contra hc
    rw [hslow hc] at h
    exact absurd h (by simp)
  · rw [hfast h]
  · apply hslow
    rintro ⟨h1, h2⟩
    rcases h with h | h
    · have h3 : (res.ExpiresIn - 60) * 1000000000 ≤ 0 :=
        mul_nonpos_of_nonpos_of_nonneg (by omega) (by norm_num)
      have h4 : env.nowStore + (res.ExpiresIn - 60) * 1000000000 ≤ env.nowStore := by
        linarith
      exact absurd h2 (not_lt.mpr (le_trans h4 hle))
    · exact h1 h

theorem dingtalk_slow_calls (env : dingtalk.World) (w : dingtalk.DingTalkClient)
    (h : ¬ (w.token ≠ "" ∧ env.nowCheck < w.tokenExp)) :
    (dingtalk.getAccessToken env w).calls = [dingtalk.tokenRequest w] := by
  have hs : ¬ (w.token ≠ "" ∧ time.Before env.nowCheck w.tokenExp = true) := by
    simpa only [time.Before, decide_eq_true_eq] using h
  simp only [dingtalk.getAccessToken, if_neg hs, http.Get, dingtalk.tokenRequest]
  split
  · rfl
  · split <;> rfl

theorem dingtalk_after_refresh (env env2 : dingtalk.World) (w : dingtalk.DingTalkClient)
    (res : dingtalk.TokenRes)
    (hstale : w.token = "" ∨ w.tokenExp ≤ env.nowCheck)
    (hrep : env.gettoken (dingtalk.tokenRequest w) = .ok res) (hcode : res.ErrCode = 0)
    (hrange : isInt64 ((res.ExpiresIn - 60) * 1000000000)) :
    ((res.AccessToken ≠ "" ∧ env2.nowCheck < env.nowStore + (res.ExpiresIn - 60) * 1000000000) →
      dingtalk.getAccessToken env2 (dingtalk.getAccessToken env w).state =
        { result := .ok res.AccessToken, state := (dingtalk.getAccessToken env w).state
          calls := [] }) ∧
    (¬ (res.AccessToken ≠ "" ∧
        env2.nowCheck < env.nowStore + (res.ExpiresIn - 60) * 1000000000) →
      (dingtalk.getAccessToken env2 (dingtalk.getAccessToken env w).state).calls =
        [dingtalk.tokenRequest (dingtalk.getAccessToken env w).state]) ∧
    ((dingtalk.getAccessToken env2 (dingtalk.getAccessToken env w).state).calls = [] ↔
      (res.AccessToken ≠ "" ∧
        env2.nowCheck < env.nowStore + (res.ExpiresIn - 60) * 1000000000)) ∧
    ((res.ExpiresIn ≤ 60 ∨ res.AccessToken = "") → env.nowStore ≤ env2.nowCheck →
      (dingtalk.getAccessToken env2 (dingtalk.getAccessToken env w).state).calls =
        [dingtalk.tokenRequest (dingtalk.getAccessToken env w).state]) := by
  have hst := dingtalk_refresh env w res hstale hrep hcode hrange
  have htok : (dingtalk.getAccessToken env w).state.token = res.AccessToken := by rw [hst]
  have hexp : (dingtalk.getAccessToken env w).state.tokenExp
      = env.nowStore + (res.ExpiresIn - 60) * 1000000000 := by rw [hst]
  have hfast : (res.AccessToken ≠ "" ∧
      env2.nowCheck < env.nowStore + (res.ExpiresIn - 60) * 1000000000) →
      dingtalk.getAccessToken env2 (dingtalk.getAccessToken env w).state =
        { result := .ok res.AccessToken, state := (dingtalk.getAccessToken env w).state
          calls := [] } := by
    intro hc
    have := dingtalk_cached env2 (dingtalk.getAccessToken env w).state (by rw [htok]; exact hc.1)
      (by rw [hexp]; exact hc.2)
    rw [this, htok]
  have hslow : ¬ (res.AccessToken ≠ "" ∧
      env2.nowCheck < env.nowStore + (res.ExpiresIn - 60) * 1000000000) →
      (dingtalk.getAccessToken env2 (dingtalk.getAccessToken env w).state).calls =
        [dingtalk.tokenRequest (dingtalk.getAccessToken env w).state] := by
    intro hc
    exact dingtalk_slow_calls env2 _ (by rw [htok, hexp]; exact hc)
  refine ⟨hfast, hslow, ⟨fun h => ?_, fun h => ?_⟩, fun h hle => ?_⟩
  · by_contra hc
    rw [hslow hc] at h
    exact absurd h (by simp)
  · rw [hfast h]
  · apply hslow
    rintro ⟨h1, h2⟩
    rcases h with h | h
    · have h3 : (res.ExpiresIn - 60) * 1000000000 ≤ 0 :=
        mul_nonpos_of_nonpos_of_nonneg (by omega) (by norm_num)
      have h4 : env.nowStore + (res.ExpiresIn - 60) * 1000000000 ≤ env.nowStore := by
        linarith
      exact absurd h2 (not_lt.mpr (le_trans h4 hle))
    · exact h1 h

theorem feishu_slow_calls (env : feishu.World) (w : feishu.FeishuClient)
    (h : ¬ (w.token ≠ "" ∧ env.nowCheck < w.tokenExp)) :
    (feishu.getAccessToken env w).calls = [feishu.tokenRequest w] := by
  have hs : ¬ (w.token ≠ "" ∧ time.Before env.nowCheck w.tokenExp = true) := by
    simpa only [time.Before, decide_eq_true_eq] using h
  simp only [feishu.getAccessToken, if_neg hs, http.Post, feishu.tokenRequest]
  split
  · rfl
  · split <;> rfl

theorem feishu_after_refresh (env env2 : feishu.World) (w : feishu.FeishuClient)
    (res : feishu.TokenRes)
    (hstale : w.token = "" ∨ w.tokenExp ≤ env.nowCheck)
    (hrep : env.tenantAccessToken (feishu.tokenRequest w) = .ok res) (hcode : res.Code = 0)
    (hrange : isInt64 ((res.Expire - 60) * 1000000000)) :
    ((res.TenantAccessToken ≠ "" ∧ env2.nowCheck < env.nowStore + (res.Expire - 60) * 1000000000) →
      feishu.getAccessToken env2 (feishu.getAccessToken env w).state =
        { result := .ok res.TenantAccessToken, state := (feishu.getAccessToken env w).state
          calls := [] }) ∧
    (¬ (res.TenantAccessToken ≠ "" ∧
        env2.nowCheck < env.nowStore + (res.Expire - 60) * 1000000000) →
      (feishu.getAccessToken env2 (feishu.getAccessToken env w).state).calls =
        [feishu.tokenRequest (feishu.getAccessToken env w).state]) ∧
    ((feishu.getAccessToken env2 (feishu.getAccessToken env w).state).calls = [] ↔
      (res.TenantAccessToken ≠ "" ∧
        env2.nowCheck < env.nowStore + (res.Expire - 60) * 1000000000)) ∧
    ((res.Expire ≤ 60 ∨ res.TenantAccessToken = "") → env.nowStore ≤ env2.nowCheck →
      (feishu.getAccessToken env2 (feishu.getAccessToken env w).state).calls =
        [feishu.tokenRequest (feishu.getAccessToken env w).state]) := by
  have hst := feishu_refresh env w res hstale hrep hcode hrange
  have htok : (feishu.getAccessToken env w).state.token = res.TenantAccessToken := by rw [hst]
  have hexp : (feishu.getAccessToken env w).state.tokenExp
      = env.nowStore + (res.Expire - 60) * 1000000000 := by rw [hst]
  have hfast : (res.TenantAccessToken ≠ "" ∧
      env2.nowCheck < env.nowStore + (res.Expire - 60) * 1000000000) →
      feishu.getAccessToken env2 (feishu.getAccessToken env w).state =
        { result := .ok res.TenantAccessToken, state := (feishu.getAccessToken env w).state
          calls := [] } := by
    intro hc
    have := feishu_cached env2 (feishu.getAccessToken env w).state (by rw [htok]; exact hc.1)
      (by rw [hexp]; exact hc.2)
    rw [this, htok]
  have hslow : ¬ (res.TenantAccessToken ≠ "" ∧
      env2.nowCheck < env.nowStore + (res.Expire - 60) * 1000000000) →
      (feishu.getAccessToken env2 (feishu.getAccessToken env w).state).calls =
        [feishu.tokenRequest (feishu.getAccessToken env w).state] := by
    intro hc
    exact feishu_slow_calls env2 _ (by rw [htok, hexp]; exact hc)
  refine ⟨hfast, hslow, ⟨fun h => ?_, fun h => ?_⟩, fun h hle => ?_⟩
  · by_contra hc
    rw [hslow hc] at h
    exact absurd h (by simp)
  · rw [hfast h]
  · apply hslow
    rintro ⟨h1, h2⟩
    rcases h with h | h
    · have h3 : (res.Expire - 60) * 1000000000 ≤ 0 :=
        mul_nonpos_of_nonpos_of_nonneg (by omega) (by norm_num)
      have h4 : env.nowStore + (res.Expire - 60) * 1000000000 ≤ env.nowStore := by
        linarith
      exact absurd h2 (not_lt.mpr (le_trans h4 hle))
    · exact h1 h

/-- C13, as the code has it. Token state machine after refresh, for each of the
three adapters. Take a refresh that succeeded with token `t` and TTL `n`, where
`(n - 60)` seconds lies inside the `int64` nanosecond range of `time.Duration`,
and let `now` be the clock reading taken when the reply was stored. A following
`getAccessToken` whose clock reads `t2` takes the fast path (returns `t`, issues
no request, leaves the state alone) if and only if `t` is non-empty and
`t2 < now + (n - 60)` seconds; otherwise it issues the auth request. In
particular, when `n <= 60` or `t` is empty, every following call with
`t2 >= now` issues a new auth request: the stored token is never served from the
cache. -/
theorem token_state_machine_in_duration_range :
    (∀ (env env2 : wecom.World) (w : wecom.WeComClient) (res : wecom.TokenRes),
      (w.token = "" ∨ w.tokenExp ≤ env.nowCheck) →
      env.gettoken (wecom.tokenRequest w) = .ok res → res.ErrCode = 0 →
      isInt64 ((res.ExpiresIn - 60) * 1000000000) →
      ((res.AccessToken ≠ "" ∧ env2.nowCheck < env.nowStore + (res.ExpiresIn - 60) * 1000000000) →
        wecom.getAccessToken env2 (wecom.getAccessToken env w).state =
          { result := .ok res.AccessToken, state := (wecom.getAccessToken env w).state
            calls := [] }) ∧
      (¬ (res.AccessToken ≠ "" ∧
          env2.nowCheck < env.nowStore + (res.ExpiresIn - 60) * 1000000000) →
        (wecom.getAccessToken env2 (wecom.getAccessToken env w).state).calls =
          [wecom.tokenRequest (wecom.getAccessToken env w).state]) ∧
      ((wecom.getAccessToken env2 (wecom.getAccessToken env w).state).calls = [] ↔
        (res.AccessToken ≠ "" ∧
          env2.nowCheck < env.nowStore + (res.ExpiresIn - 60) * 1000000000)) ∧
      ((res.ExpiresIn ≤ 60 ∨ res.AccessToken = "") → env.nowStore ≤ env2.nowCheck →
        (wecom.getAccessToken env2 (wecom.getAccessToken env w).state).calls =
          [wecom.tokenRequest (wecom.getAccessToken env w).state])) ∧
    (∀ (env env2 : dingtalk.World) (w : dingtalk.DingTalkClient) (res : dingtalk.TokenRes),
      (w.token = "" ∨ w.tokenExp ≤ env.nowCheck) →
      env.gettoken (dingtalk.tokenRequest w) = .ok res → res.ErrCode = 0 →
      isInt64 ((res.ExpiresIn - 60) * 1000000000) →
      ((res.AccessToken ≠ "" ∧ env2.nowCheck < env.nowStore + (res.ExpiresIn - 60) * 1000000000) →
        dingtalk.getAccessToken env2 (dingtalk.getAccessToken env w).state =
          { result := .ok res.AccessToken, state := (dingtalk.getAccessToken env w).state
            calls := [] }) ∧
      (¬ (res.AccessToken ≠ "" ∧
          env2.nowCheck < env.nowStore + (res.ExpiresIn - 60) * 1000000000) →
        (dingtalk.getAccessToken env2 (dingtalk.getAccessToken env w).state).calls =
          [dingtalk.tokenRequest (dingtalk.getAccessToken env w).state]) ∧
      ((dingtalk.getAccessToken env2 (dingtalk.getAccessToken env w).state).calls = [] ↔
        (res.AccessToken ≠ "" ∧
          env2.nowCheck < env.nowStore + (res.ExpiresIn - 60) * 1000000000)) ∧
      ((res.ExpiresIn ≤ 60 ∨ res.AccessToken = "") → env.nowStore ≤ env2.nowCheck →
        (dingtalk.getAccessToken env2 (dingtalk.getAccessToken env w).state).calls =
          [dingtalk.tokenRequest (dingtalk.getAccessToken env w).state])) ∧
    (∀ (env env2 : feishu.World) (w : feishu.FeishuClient) (res : feishu.TokenRes),
      (w.token = "" ∨ w.tokenExp ≤ env.nowCheck) →
      env.tenantAccessToken (feishu.tokenRequest w) = .ok res → res.Code = 0 →
      isInt64 ((res.Expire - 60) * 1000000000) →
      ((res.TenantAccessToken ≠ "" ∧ env2.nowCheck < env.nowStore + (res.Expire - 60) * 1000000000) →
        feishu.getAccessToken env2 (feishu.getAccessToken env w).state =
          { result := .ok res.TenantAccessToken, state := (feishu.getAccessToken env w).state
            calls := [] }) ∧
      (¬ (res.TenantAccessToken ≠ "" ∧
          env2.nowCheck < env.nowStore + (res.Expire - 60) * 1000000000) →
        (feishu.getAccessToken env2 (feishu.getAccessToken env w).state).calls =
          [feishu.tokenRequest (feishu.getAccessToken env w).state]) ∧
      ((feishu.getAccessToken env2 (feishu.getAccessToken env w).state).calls = [] ↔
        (res.TenantAccessToken ≠ "" ∧
          env2.nowCheck < env.nowStore + (res.Expire - 60) * 1000000000)) ∧
      ((res.Expire ≤ 60 ∨ res.TenantAccessToken = "") → env.nowStore ≤ env2.nowCheck →
        (feishu.getAccessToken env2 (feishu.getAccessToken env w).state).calls =
          [feishu.tokenRequest (feishu.getAccessToken env w).state])) :=
  ⟨fun env env2 w res h1 h2 h3 h4 => wecom_after_refresh env env2 w res h1 h2 h3 h4,
   fun env env2 w res h1 h2 h3 h4 => dingtalk_after_refresh env env2 w res h1 h2 h3 h4,
   fun env env2 w res h1 h2 h3 h4 => feishu_after_refresh env env2 w res h1 h2 h3 h4⟩

/-- A fresh WeCom client refreshed at time 1000 with TTL 7200 and asked again at
time 1000 answers `"T1"` from the cache; refreshed with TTL 60 it issues the auth
request again. -/
theorem token_state_machine_in_duration_range_witness :
    wecom.getAccessToken (wecom.sampleWorld 0 7200 0)
        (wecom.getAccessToken (wecom.sampleWorld 0 7200 0)
          (wecom.NewWeComClient "corp" "secret")).state =
      { result := .ok "T1"
        state := (wecom.getAccessToken (wecom.sampleWorld 0 7200 0)
          (wecom.NewWeComClient "corp" "secret")).state
        calls := [] } ∧
    (wecom.getAccessToken (wecom.sampleWorld 0 7200 0)
        (wecom.getAccessToken (wecom.sampleWorld 0 60 0)
          (wecom.NewWeComClient "corp" "secret")).state).calls =
      [wecom.tokenRequest (wecom.getAccessToken (wecom.sampleWorld 0 60 0)
          (wecom.NewWeComClient "corp" "secret")).state] :=
  ⟨(token_state_machine_in_duration_range.1 (wecom.sampleWorld 0 7200 0)
      (wecom.sampleWorld 0 7200 0) (wecom.NewWeComClient "corp" "secret")
      { ErrCode := 0, ErrMsg := "auth refused", AccessToken := "T1", ExpiresIn := 7200 }
      (Or.inl rfl) rfl rfl (by decide)).1 (by decide),
   (token_state_machine_in_duration_range.1 (wecom.sampleWorld 0 60 0)
      (wecom.sampleWorld 0 7200 0) (wecom.NewWeComClient "corp" "secret")
      { ErrCode := 0, ErrMsg := "auth refused", AccessToken := "T1", ExpiresIn := 60 }
      (Or.inl rfl) rfl rfl (by decide)).2.2.2 (Or.inl (by decide)) (by decide)⟩

/-- C13 as stated fails at both ends of the TTL range. With TTL
`n = 10000000000` the token `"T1"` is non-empty and the next call, at the time
of the refresh, is before `now + (n - 60)` seconds, yet the stored expiry has
wrapped into the past and the call issues the auth request again. With TTL
`n = -9223371977`, which is below 60, the stored expiry has wrapped into the
future and the next call is served from the cache. -/
theorem token_cache_after_duration_overflow :
    (wecom.getAccessToken (wecom.sampleWorld 0 10000000000 0)
        (wecom.getAccessToken (wecom.sampleWorld 0 10000000000 0)
          (wecom.NewWeComClient "corp" "secret")).state).calls =
      [wecom.tokenRequest (wecom.NewWeComClient "corp" "secret")] ∧
    ("T1" ≠ "" ∧ (1000 : Int) < 1000 + (10000000000 - 60) * 1000000000) ∧
    wecom.getAccessToken (wecom.sampleWorld 0 (-9223371977) 0)
        (wecom.getAccessToken (wecom.sampleWorld 0 (-9223371977) 0)
          (wecom.NewWeComClient "corp" "secret")).state =
      { result := .ok "T1"
        state := { CorpID := "corp", CorpSecret := "secret", token := "T1"
                   tokenExp := 1000 + 9223372036709551616 }
        calls := [] } ∧
    (-9223371977 : Int) ≤ 60 := by
  refine ⟨rfl, ⟨by decide, by decide⟩, rfl, by decide⟩

/-! ### Recipients, all three adapters -/

theorem wecom_departments_only_body (msg : im.Message) (payload : List (String × Value))
    (tok : String) (ds : List String) (h : wecom.convertMessage msg = .ok payload) :
    ∃ b, (wecom.sendRequest tok [] ds msg payload).body = some (.obj b) ∧
      mapGet b "touser" = some (.str "") ∧
      mapGet b "toparty" = some (.str (strings.Join ds "|")) := by
  obtain ⟨ht, v, hv⟩ := wecom_payload_shape msg payload h
  obtain ⟨t, c⟩ := msg
  simp only at ht hv
  subst hv
  refine ⟨_, rfl, ?_⟩
  rw [wecom_body_routing t v [] ds c ht, joinIDs_eq ds]
  simp [mapGet, utils.JoinIDs]

/-- C8, as the code has it. Non-empty recipients. For DingTalk and for Feishu,
`SendMessage` with an empty `toUserIDs` returns an error, for every message and
every `toDeptIDs`, and issues no send request: the requests it issues are those
of `getAccessToken`, each of them the auth request. WeCom, which addresses
departments through `toparty`, makes no test on `toUserIDs`: called with an
empty `toUserIDs` and a non-empty `toDeptIDs`, with the token in hand, a message
it can encode and a send request that is made, it issues the send request, whose
body has `touser` equal to the empty string and `toparty` equal to the
department IDs joined by "|". -/
theorem empty_recipients_rejected_dingtalk_feishu :
    (∀ (env : dingtalk.World) (d : dingtalk.DingTalkClient) (ds : List String)
        (msg : im.Message),
      (∃ e, (dingtalk.SendMessage env d [] ds msg).result = .error e) ∧
      (dingtalk.SendMessage env d [] ds msg).calls = (dingtalk.getAccessToken env d).calls ∧
      ∀ r ∈ (dingtalk.SendMessage env d [] ds msg).calls, r = dingtalk.tokenRequest d) ∧
    (∀ (env : feishu.World) (f : feishu.FeishuClient) (ds : List String) (msg : im.Message),
      (∃ e, (feishu.SendMessage env f [] ds msg).result = .error e) ∧
      (feishu.SendMessage env f [] ds msg).calls = (feishu.getAccessToken env f).calls ∧
      ∀ r ∈ (feishu.SendMessage env f [] ds msg).calls, r = feishu.tokenRequest f) ∧
    (∀ (env : wecom.World) (w : wecom.WeComClient) (ds : List String) (msg : im.Message)
        (tok : String) (payload : List (String × Value)),
      ds ≠ [] →
      (wecom.getAccessToken env w).result = .ok tok →
      wecom.convertMessage msg = .ok payload →
      (env.send (wecom.sendRequest tok [] ds msg payload)).made = true →
      (wecom.SendMessage env w [] ds msg).calls =
        (wecom.getAccessToken env w).calls ++ [wecom.sendRequest tok [] ds msg payload] ∧
      ∃ b, (wecom.sendRequest tok [] ds msg payload).body = some (.obj b) ∧
        mapGet b "touser" = some (.str "") ∧
        mapGet b "toparty" = some (.str (strings.Join ds "|"))) := by
  refine ⟨fun env d ds msg => ?_, fun env f ds msg => ?_,
    fun env w ds msg tok payload _ h1 h2 h3 => ?_⟩
  · obtain ⟨h1, h2⟩ := dingtalk_send_no_recipient env d ds msg
    refine ⟨h1, h2, ?_⟩
    rw [h2]
    exact dingtalk_calls_auth_only env d
  · obtain ⟨h1, h2⟩ := feishu_send_no_recipient env f ds msg
    refine ⟨h1, h2, ?_⟩
    rw [h2]
    exact feishu_calls_auth_only env f
  · exact ⟨wecom_send_calls env w [] ds msg tok payload h1 h2 h3,
      wecom_departments_only_body msg payload tok ds h2⟩

/-- A fresh DingTalk client, no user and department `7`: the auth request is
issued, then the call fails without a send request. A WeCom client with a cached
token, no user and department `7`: the send request is issued. -/
theorem empty_recipients_rejected_dingtalk_feishu_witness :
    (∃ e, (dingtalk.SendMessage (dingtalk.sampleWorld 0 7200 0)
      (dingtalk.NewDingTalkClient "key" "secret") [] ["7"] ⟨im.TextMsg, .str "hi"⟩).result
        = .error e) ∧
    (wecom.SendMessage (wecom.sampleWorld 0 7200 0) wecom.cachedClient [] ["7"]
      ⟨im.TextMsg, .str "hi"⟩).calls =
      (wecom.getAccessToken (wecom.sampleWorld 0 7200 0) wecom.cachedClient).calls ++
        [wecom.sendRequest "T0" [] ["7"] ⟨im.TextMsg, .str "hi"⟩
          [("text", .strMap [("content", "hi")])]] :=
  ⟨(empty_recipients_rejected_dingtalk_feishu.1 (dingtalk.sampleWorld 0 7200 0)
      (dingtalk.NewDingTalkClient "key" "secret") ["7"] ⟨im.TextMsg, .str "hi"⟩).1,
   (empty_recipients_rejected_dingtalk_feishu.2.2 (wecom.sampleWorld 0 7200 0) wecom.cachedClient
      ["7"] ⟨im.TextMsg, .str "hi"⟩ "T0" [("text", .strMap [("content", "hi")])]
      (by decide) rfl rfl rfl).1⟩

/-- C8 as stated fails for WeCom: with no user and the department `7`, a fresh
client fetches its token, posts the message with `touser` empty and `toparty`
equal to "7", and returns success. -/
theorem wecom_sends_to_departments_without_user :
    wecom.SendMessage (wecom.sampleWorld 0 7200 0) (wecom.NewWeComClient "corp" "secret") []
        ["7"] ⟨im.TextMsg, .str "hi"⟩ =
      { result := .ok ()
        state := { CorpID := "corp", CorpSecret := "secret", token := "T1"
                   tokenExp := 7140000001000 }
        calls := [wecom.tokenRequest (wecom.NewWeComClient "corp" "secret"),
          { method := "POST"
            url := "https://qyapi.weixin.qq.com/cgi-bin/message/send?access_token=T1"
            body := some (.obj [("touser", .str ""), ("toparty", .str "7"),
              ("msgtype", .str "text"), ("text", .strMap [("content", "hi")])])
            headers := [("Content-Type", "application/json;charset=utf-8")] }] } := by
  rfl
